import Mathlib

/-!
Verification of the shader hot-reload subsystem of the `gogl` repository
(files `hotloading.go` and `program.go`).

The Go code is shallowly embedded as pure Lean functions over an explicit
state.  Graphics-API calls (`gl.CreateShader`, `gl.CreateProgram`,
`gl.DeleteShader`, `gl.DeleteProgram`) are modelled as events recorded in a
trace, with fresh ids drawn from a counter; the outcome of shader
compilation and program linking is decided by an environment oracle, as is
the filesystem (`os.Stat`, `ioutil.ReadFile`).  A Go `panic` is modelled as
a distinguished result constructor that carries the state at the moment of
the panic; a Go `error` return value is an `Option String` / `Except`
value.  The registry `LoadedPrograms` is a `map[string]*Program`, so it is
modelled as an association list from names to heap pointers together with a
heap assigning a `Program` record to each pointer, which lets us speak
about in-place mutation through pointers.
-/

namespace Gogl

/-- Shader stage constant `gl.VERTEX_SHADER`. -/
def VERTEX_SHADER : Nat := 35633

/-- Shader stage constant `gl.FRAGMENT_SHADER`. -/
def FRAGMENT_SHADER : Nat := 35632

/-- The `Program` struct of `program.go`. Handles are `Nat` here. -/
structure Program where
  ID : Nat
  ProgramName : String
  VertexShaderFilePath : String
  FragmentShaderFilePath : String
deriving Repr, DecidableEq

/-- The `ShaderFileInfo` struct of `hotloading.go`; modification times are
modelled as natural numbers. -/
structure ShaderFileInfo where
  FilePath : String
  LastModified : Nat
deriving Repr, DecidableEq

/-- Events recording the calls made to the graphics API and to the
registry, in program order. -/
inductive GLEvent where
  | createShader (id : Nat)
  | deleteShader (id : Nat)
  | createProgram (id : Nat)
  | deleteProgram (id : Nat)
  | makeProgramCall (name : String)
  | registryInsert (name : String) (id : Nat)
  | registryUpdate (name : String) (id : Nat)
  | logError (msg : String)
deriving Repr, DecidableEq

/-- The global mutable state of the subsystem: the two watchlists
(`LoadedShaders`, `LoadedPrograms`), a heap giving each `*Program`
pointer its current contents, the allocation counters, and the trace of
graphics-API calls made so far. -/
structure St where
  LoadedShaders : List ShaderFileInfo
  LoadedPrograms : List (String × Nat)
  heap : List (Nat × Program)
  nextPtr : Nat
  nextGLID : Nat
  trace : List GLEvent
deriving Repr, DecidableEq

/-- The external world: filesystem stat and read, and the compile/link
oracles of the graphics driver.  `stat` returns the modification time,
`none` meaning the stat fails; `readFile` returns the file contents;
`compileOk src kind` decides whether a shader source compiles;
`linkOk pid` decides whether the program object `pid` links. -/
structure Env where
  stat : String → Option Nat
  readFile : String → Option String
  compileOk : String → Nat → Bool
  linkOk : Nat → Bool

/-- Result of running a piece of Go code: a normal return value with the
final state, or a `panic` carrying a message and the state at the panic. -/
inductive Res (α : Type) where
  | ok (a : α) (st : St)
  | panicked (msg : String) (st : St)
deriving Repr, DecidableEq

/-- The final state of a result, whether it returned or panicked. -/
def Res.state {α : Type} : Res α → St
  | .ok _ st => st
  | .panicked _ st => st

/-- Whether the computation panicked. -/
def Res.isPanic {α : Type} : Res α → Bool
  | .ok _ _ => false
  | .panicked _ _ => true

/-- Association-list lookup used to model Go map indexing and pointer
dereference. -/
def alookup {β : Type} : List (String × β) → String → Option β
  | [], _ => none
  | (k, v) :: rest, key => if k = key then some v else alookup rest key

/-- Heap lookup: dereference a `*Program`. -/
def hlookup : List (Nat × Program) → Nat → Option Program
  | [], _ => none
  | (k, v) :: rest, key => if k = key then some v else hlookup rest key

/-- In-place update of the `ID` field of the `Program` stored at a given
pointer, modelling `(*programPtr).ID = programID` in `program.go`. -/
def heapUpdateID (heap : List (Nat × Program)) (ptr : Nat) (newID : Nat) :
    List (Nat × Program) :=
  heap.map (fun c => if c.1 = ptr then (c.1, { c.2 with ID := newID }) else c)

/-- The paths currently on the shader watchlist, in registration order. -/
def watchPaths (st : St) : List String :=
  st.LoadedShaders.map ShaderFileInfo.FilePath

/-- `shaderIsInWatchList` from `hotloading.go`. -/
def shaderIsInWatchList (st : St) (path : String) : Bool :=
  st.LoadedShaders.any (fun info => info.FilePath = path)

/-- The ids passed to `gl.DeleteProgram` so far, in call order. -/
def deletedProgs (tr : List GLEvent) : List Nat :=
  tr.filterMap (fun e => match e with
    | .deleteProgram id => some id
    | _ => none)

/-- How many times `MakeProgram` has been entered for a given program
name, i.e. the number of rebuild attempts recorded for that name. -/
def makeProgramCalls (tr : List GLEvent) (name : String) : Nat :=
  (tr.filter (fun e => match e with
    | .makeProgramCall m => m = name
    | _ => false)).length

/-- `MakeShader` from `gogl.go`: create a shader object, hand the source
to the driver, and check compilation; on compile failure return a Go
error.  Never panics. -/
def MakeShader (env : Env) (st : St) (shaderSourceCode : String)
    (shaderType : Nat) : Except String Nat × St :=
  let shaderId := st.nextGLID
  let st1 : St := { st with
    nextGLID := st.nextGLID + 1
    trace := st.trace ++ [GLEvent.createShader shaderId] }
  if env.compileOk shaderSourceCode shaderType then
    (Except.ok shaderId, st1)
  else
    (Except.error ("failed to compile " ++ shaderSourceCode), st1)

/-- `LoadShader` from `hotloading.go`: read the file (panic on read
failure), compile it (error return on compile failure), then add the path
to the watchlist if it is not yet a member (panic on stat failure). -/
def LoadShader (env : Env) (st : St) (path : String) (shaderType : Nat) :
    Res (Except String Nat) :=
  match env.readFile path with
  | none => Res.panicked ("read error: " ++ path) st
  | some shaderFileStr =>
    match MakeShader env st shaderFileStr shaderType with
    | (Except.error e, st1) => Res.ok (Except.error e) st1
    | (Except.ok shaderID, st1) =>
      if shaderIsInWatchList st1 path then
        Res.ok (Except.ok shaderID) st1
      else
        match env.stat path with
        | none => Res.panicked ("stat error: " ++ path) st1
        | some modTime =>
          Res.ok (Except.ok shaderID)
            { st1 with LoadedShaders :=
                st1.LoadedShaders ++ [⟨path, modTime⟩] }

/-- `MakeProgram` from `program.go`: load both shaders, create and link a
program object (PANIC on link failure, per `program.go` line 56), delete
the intermediate shader objects, then insert or update the registry entry
for the name.  On insert the `ProgramName` field is left empty, exactly as
in the Go struct literal.  Returns the `*Program` pointer for the name. -/
def MakeProgram (env : Env) (st : St) (programName : String)
    (vertexShaderPath : String) (fragmentShaderPath : String) :
    Res (Except String Nat) :=
  let st0 : St := { st with
    trace := st.trace ++ [GLEvent.makeProgramCall programName] }
  match LoadShader env st0 vertexShaderPath VERTEX_SHADER with
  | Res.panicked m s => Res.panicked m s
  | Res.ok (Except.error e) st1 => Res.ok (Except.error e) st1
  | Res.ok (Except.ok vertexShaderID) st1 =>
    match LoadShader env st1 fragmentShaderPath FRAGMENT_SHADER with
    | Res.panicked m s => Res.panicked m s
    | Res.ok (Except.error e2) st2 => Res.ok (Except.error e2) st2
    | Res.ok (Except.ok fragmentShaderID) st2 =>
      let programID := st2.nextGLID
      let st3 : St := { st2 with
        nextGLID := st2.nextGLID + 1
        trace := st2.trace ++ [GLEvent.createProgram programID] }
      if env.linkOk programID then
        let st4 : St := { st3 with
          trace := st3.trace ++
            [GLEvent.deleteShader vertexShaderID,
             GLEvent.deleteShader fragmentShaderID] }
        match alookup st4.LoadedPrograms programName with
        | none =>
          let ptr := st4.nextPtr
          let st5 : St := { st4 with
            nextPtr := st4.nextPtr + 1
            heap := st4.heap ++ [(ptr,
              { ID := programID
                ProgramName := ""
                VertexShaderFilePath := vertexShaderPath
                FragmentShaderFilePath := fragmentShaderPath })]
            LoadedPrograms := st4.LoadedPrograms ++ [(programName, ptr)]
            trace := st4.trace ++ [GLEvent.registryInsert programName programID] }
          Res.ok (Except.ok ptr) st5
        | some programPtr =>
          let st5 : St := { st4 with
            heap := heapUpdateID st4.heap programPtr programID
            trace := st4.trace ++ [GLEvent.registryUpdate programName programID] }
          Res.ok (Except.ok programPtr) st5
      else
        Res.panicked "failed to link program" st3

/-- `ReloadProgram` from `hotloading.go`: decide whether any changed file
is one of the program's two source paths; if so save the old id, call
`MakeProgram` (which updates the entry in place on success), and on
success delete the old program object.  A Go `error` is returned as
`some e`. -/
def ReloadProgram (env : Env) (st : St) (programName : String)
    (storedProgramPtr : Nat) (changedShaderFiles : List String) :
    Res (Option String) :=
  match hlookup st.heap storedProgramPtr with
  | none => Res.panicked "invalid program pointer" st
  | some prog =>
    let needsRebuilding := changedShaderFiles.any
      (fun f => f = prog.VertexShaderFilePath ∨ f = prog.FragmentShaderFilePath)
    if needsRebuilding then
      let oldProgramID := prog.ID
      match MakeProgram env st programName prog.VertexShaderFilePath
          prog.FragmentShaderFilePath with
      | Res.panicked m s => Res.panicked m s
      | Res.ok (Except.error e) st1 => Res.ok (some e) st1
      | Res.ok (Except.ok _) st1 =>
        Res.ok none
          { st1 with trace := st1.trace ++ [GLEvent.deleteProgram oldProgramID] }
    else
      Res.ok none st

/-- The loop of `GetChangedShaderFiles`, processed entry by entry.  For
each watched file the filesystem is re-statted; a stat failure panics (the
third component becomes `some msg` and later entries stay untouched); a
fresh modification time different from the stored one updates the stored
time and reports the path.  Returns the updated watchlist, the changed
paths in watchlist order, and the pending panic if any. -/
def getChangedAux (env : Env) :
    List ShaderFileInfo → List ShaderFileInfo × List String × Option String
  | [] => ([], [], none)
  | info :: rest =>
    match env.stat info.FilePath with
    | none => (info :: rest, [], some ("stat error: " ++ info.FilePath))
    | some modTime =>
      let (rest1, files, p) := getChangedAux env rest
      if modTime = info.LastModified then
        (info :: rest1, files, p)
      else
        ({ info with LastModified := modTime } :: rest1,
          info.FilePath :: files, p)

/-- `GetChangedShaderFiles` from `hotloading.go`: scan the watchlist,
panicking on the first stat failure, updating stored timestamps of changed
files, and returning the changed paths. -/
def GetChangedShaderFiles (env : Env) (st : St) : Res (List String) :=
  match getChangedAux env st.LoadedShaders with
  | (shaders1, _, some msg) =>
    Res.panicked msg { st with LoadedShaders := shaders1 }
  | (shaders1, files, none) =>
    Res.ok files { st with LoadedShaders := shaders1 }

/-- One step of the loop body in `HotloadShaders`: the error returned by
`ReloadProgram` is logged (`log.Println`) and the loop continues. -/
def hotloadLoop (env : Env) (changed : List String) :
    List (String × Nat) → St → Res Unit
  | [], st => Res.ok () st
  | (name, ptr) :: rest, st =>
    match ReloadProgram env st name ptr changed with
    | Res.panicked m s => Res.panicked m s
    | Res.ok none st1 => hotloadLoop env changed rest st1
    | Res.ok (some e) st1 =>
      hotloadLoop env changed rest
        { st1 with trace := st1.trace ++ [GLEvent.logError e] }

/-- `HotloadShaders` from `hotloading.go`: poll for changed files, and if
any, run `ReloadProgram` for every registered program. -/
def HotloadShaders (env : Env) (st : St) : Res Unit :=
  match GetChangedShaderFiles env st with
  | Res.panicked m s => Res.panicked m s
  | Res.ok changedShaderFiles st1 =>
    if changedShaderFiles.length > 0 then
      hotloadLoop env changedShaderFiles st1.LoadedPrograms st1
    else
      Res.ok () st1

/-! ### Invariants, derived notions, and concrete test fixtures -/

/-- The watchlist invariant of the spec: every path referenced by a
registered program entry is watched, and watched paths are pairwise
distinct (one watchlist entry per file). -/
def WatchInv (st : St) : Prop :=
  (watchPaths st).Nodup ∧
  ∀ c ∈ st.LoadedPrograms, ∀ prog, hlookup st.heap c.2 = some prog →
    prog.VertexShaderFilePath ∈ watchPaths st ∧
    prog.FragmentShaderFilePath ∈ watchPaths st

/-- Heap well-formedness: every allocated pointer is below the allocator
counter (true of every reachable state). -/
def PtrFresh (st : St) : Prop := ∀ c ∈ st.heap, c.1 < st.nextPtr

/-- A program record with its handle field scrubbed; used to state that an
operation can change nothing but handles. -/
def stripID (p : Program) : Program := { p with ID := 0 }

/-- The heap as seen through a pointer, ignoring handle values. -/
def heapShape (st : St) (k : Nat) : Option Program :=
  (hlookup st.heap k).map stripID

/-- Whether the program stored at a pointer has a dependency among the
changed files — the `needsRebuilding` test of `ReloadProgram`. -/
def affectedAt (st : St) (ptr : Nat) (changed : List String) : Bool :=
  match hlookup st.heap ptr with
  | none => false
  | some prog => changed.any
      (fun q => q = prog.VertexShaderFilePath ∨ q = prog.FragmentShaderFilePath)

/-- A watchlist entry refreshed with the current filesystem time. -/
def refreshInfo (env : Env) (info : ShaderFileInfo) : ShaderFileInfo :=
  { info with LastModified := (env.stat info.FilePath).getD info.LastModified }

/-- The change test of the poll: the fresh modification time differs from
the stored one. -/
def changedTest (env : Env) (info : ShaderFileInfo) : Bool :=
  decide (env.stat info.FilePath ≠ some info.LastModified)

/-- A concrete state: one registered program `"p"` with handle 100,
depending on watched files `"v"` and `"f"`. -/
def st0 : St :=
  { LoadedShaders := [⟨"v", 0⟩, ⟨"f", 0⟩]
    LoadedPrograms := [("p", 0)]
    heap := [(0, ⟨100, "", "v", "f"⟩)]
    nextPtr := 1
    nextGLID := 101
    trace := [] }

/-- A concrete state with two registered programs sharing both source
files. -/
def st2 : St :=
  { LoadedShaders := [⟨"v", 0⟩, ⟨"f", 0⟩]
    LoadedPrograms := [("p1", 0), ("p2", 1)]
    heap := [(0, ⟨100, "", "v", "f"⟩), (1, ⟨200, "", "v", "f"⟩)]
    nextPtr := 2
    nextGLID := 300
    trace := [] }

/-- An environment in which `"v"` has been modified (its stat time is 1
against stored 0), everything reads and compiles, and linking
succeeds. -/
def envGood : Env :=
  { stat := fun p => if p = "v" then some 1 else if p = "f" then some 0
      else if p = "v2" then some 5 else if p = "f2" then some 6 else none
    readFile := fun p => some ("src-" ++ p)
    compileOk := fun _ _ => true
    linkOk := fun _ => true }

/-- Same world, but every link attempt fails. -/
def envLinkBad : Env := { envGood with linkOk := fun _ => false }

/-- Same world, but every compile attempt fails. -/
def envCompileBad : Env := { envGood with compileOk := fun _ _ => false }

/-- Same world, but every stat fails (watched files vanished). -/
def envStatBad : Env := { envGood with stat := fun _ => none }

/-! ### Basic lemmas about the bookkeeping functions -/

theorem deletedProgs_append (a b : List GLEvent) :
    deletedProgs (a ++ b) = deletedProgs a ++ deletedProgs b := by
  simp [deletedProgs]

theorem makeProgramCalls_append (a b : List GLEvent) (n : String) :
    makeProgramCalls (a ++ b) n = makeProgramCalls a n + makeProgramCalls b n := by
  simp [makeProgramCalls]

theorem heapUpdateID_cons (a : Nat) (v : Program)
    (rest : List (Nat × Program)) (ptr nid : Nat) :
    heapUpdateID ((a, v) :: rest) ptr nid =
      (if a = ptr then (a, { v with ID := nid }) else (a, v)) ::
        heapUpdateID rest ptr nid := by
  simp only [heapUpdateID, List.map_cons]

theorem hlookup_updateID (h : List (Nat × Program)) (ptr nid k : Nat) :
    hlookup (heapUpdateID h ptr nid) k =
      if k = ptr then (hlookup h k).map (fun p => { p with ID := nid })
      else hlookup h k := by
  induction h with
  | nil =>
    by_cases hk : k = ptr <;> simp [hlookup, heapUpdateID, hk]
  | cons c rest ih =>
    obtain ⟨a, v⟩ := c
    rw [heapUpdateID_cons]
    by_cases hc : a = ptr
    · subst hc
      rw [if_pos rfl]
      by_cases hk : k = a
      · subst hk
        simp [hlookup]
      · have hk' : ¬ a = k := fun h => hk h.symm
        simp [hlookup, hk', ih, hk]
    · rw [if_neg hc]
      by_cases hk : k = a
      · subst hk
        simp [hlookup, hc]
      · have hk' : ¬ a = k := fun h => hk h.symm
        simp [hlookup, hc, hk', ih]

theorem shaderIsInWatchList_iff (st : St) (path : String) :
    shaderIsInWatchList st path = true ↔ path ∈ watchPaths st := by
  simp [shaderIsInWatchList, watchPaths, List.any_eq_true, List.mem_map]

/-! ### Characterisation of `LoadShader` -/

/-- Compile failure leaves the watchlist, heap and registry untouched:
the only effect is the created (leaked) shader object. -/
theorem LoadShader_compileFail (env : Env) (st : St) (path src : String)
    (ty : Nat) (h1 : env.readFile path = some src)
    (h2 : env.compileOk src ty = false) :
    LoadShader env st path ty =
      Res.ok (Except.error ("failed to compile " ++ src))
        { st with nextGLID := st.nextGLID + 1
                  trace := st.trace ++ [GLEvent.createShader st.nextGLID] } := by
  simp [LoadShader, MakeShader, h1, h2]

/-- Loading a shader whose path is already on the watchlist succeeds
without touching the watchlist. -/
theorem LoadShader_success_watched (env : Env) (st : St) (path src : String)
    (ty : Nat) (h1 : env.readFile path = some src)
    (h2 : env.compileOk src ty = true) (h3 : path ∈ watchPaths st) :
    LoadShader env st path ty =
      Res.ok (Except.ok st.nextGLID)
        { st with nextGLID := st.nextGLID + 1
                  trace := st.trace ++ [GLEvent.createShader st.nextGLID] } := by
  have h3' : shaderIsInWatchList
      { st with nextGLID := st.nextGLID + 1
                trace := st.trace ++ [GLEvent.createShader st.nextGLID] } path = true := by
    rw [shaderIsInWatchList_iff]; exact h3
  simp [LoadShader, MakeShader, h1, h2, h3']

/-- Loading a shader from a fresh path succeeds and appends the path to
the watchlist with the modification time read from the filesystem. -/
theorem LoadShader_success_fresh (env : Env) (st : St) (path src : String)
    (ty t : Nat) (h1 : env.readFile path = some src)
    (h2 : env.compileOk src ty = true) (h3 : path ∉ watchPaths st)
    (h4 : env.stat path = some t) :
    LoadShader env st path ty =
      Res.ok (Except.ok st.nextGLID)
        { st with nextGLID := st.nextGLID + 1
                  trace := st.trace ++ [GLEvent.createShader st.nextGLID]
                  LoadedShaders := st.LoadedShaders ++ [⟨path, t⟩] } := by
  have h3' : shaderIsInWatchList
      { st with nextGLID := st.nextGLID + 1
                trace := st.trace ++ [GLEvent.createShader st.nextGLID] } path = false := by
    rw [← Bool.not_eq_true, shaderIsInWatchList_iff]; exact h3
  simp [LoadShader, MakeShader, h1, h2, h3', h4]

/-! ### Characterisation of `MakeProgram` -/

/-- Successful rebuild of an already-registered program whose two source
paths are already watched (the hot-reload situation): both shaders load
and compile, the program links, and the registry entry for the name is
updated in place — the full effect, spelled out. -/
theorem MakeProgram_success_watched (env : Env) (st : St)
    (name v f sv sf : String) (ptr : Nat)
    (h1 : env.readFile v = some sv)
    (h2 : env.compileOk sv VERTEX_SHADER = true)
    (h3 : v ∈ watchPaths st)
    (h4 : env.readFile f = some sf)
    (h5 : env.compileOk sf FRAGMENT_SHADER = true)
    (h6 : f ∈ watchPaths st)
    (h7 : env.linkOk (st.nextGLID + 2) = true)
    (h8 : alookup st.LoadedPrograms name = some ptr) :
    MakeProgram env st name v f =
      Res.ok (Except.ok ptr)
        { st with
          nextGLID := st.nextGLID + 3
          heap := heapUpdateID st.heap ptr (st.nextGLID + 2)
          trace := st.trace ++
            [GLEvent.makeProgramCall name,
             GLEvent.createShader st.nextGLID,
             GLEvent.createShader (st.nextGLID + 1),
             GLEvent.createProgram (st.nextGLID + 2),
             GLEvent.deleteShader st.nextGLID,
             GLEvent.deleteShader (st.nextGLID + 1),
             GLEvent.registryUpdate name (st.nextGLID + 2)] } := by
  have hexv : ∃ x ∈ st.LoadedShaders, x.FilePath = v := by
    simpa [watchPaths] using h3
  have hexf : ∃ x ∈ st.LoadedShaders, x.FilePath = f := by
    simpa [watchPaths] using h6
  simp only [MakeProgram, LoadShader, MakeShader, shaderIsInWatchList,
    h1, h2, h4, h5, h8]
  simp [h7, h8, hexv, hexf, Nat.add_assoc]

/-- Link failure of a rebuild: `MakeProgram` panics (`program.go` line 56)
after creating the program object, without touching the registry, the
heap, or the watchlist. -/
theorem MakeProgram_linkFail (env : Env) (st : St)
    (name v f sv sf : String)
    (h1 : env.readFile v = some sv)
    (h2 : env.compileOk sv VERTEX_SHADER = true)
    (h3 : v ∈ watchPaths st)
    (h4 : env.readFile f = some sf)
    (h5 : env.compileOk sf FRAGMENT_SHADER = true)
    (h6 : f ∈ watchPaths st)
    (h7 : env.linkOk (st.nextGLID + 2) = false) :
    MakeProgram env st name v f =
      Res.panicked "failed to link program"
        { st with
          nextGLID := st.nextGLID + 3
          trace := st.trace ++
            [GLEvent.makeProgramCall name,
             GLEvent.createShader st.nextGLID,
             GLEvent.createShader (st.nextGLID + 1),
             GLEvent.createProgram (st.nextGLID + 2)] } := by
  have hexv : ∃ x ∈ st.LoadedShaders, x.FilePath = v := by
    simpa [watchPaths] using h3
  have hexf : ∃ x ∈ st.LoadedShaders, x.FilePath = f := by
    simpa [watchPaths] using h6
  simp only [MakeProgram, LoadShader, MakeShader, shaderIsInWatchList,
    h1, h2, h4, h5]
  simp [h7, hexv, hexf, Nat.add_assoc]

/-- Compile failure of the vertex shader makes `MakeProgram` return a Go
error, with the registry, heap and watchlist untouched. -/
theorem MakeProgram_compileFailV (env : Env) (st : St)
    (name v f sv : String)
    (h1 : env.readFile v = some sv)
    (h2 : env.compileOk sv VERTEX_SHADER = false) :
    MakeProgram env st name v f =
      Res.ok (Except.error ("failed to compile " ++ sv))
        { st with
          nextGLID := st.nextGLID + 1
          trace := st.trace ++
            [GLEvent.makeProgramCall name,
             GLEvent.createShader st.nextGLID] } := by
  simp only [MakeProgram, LoadShader, MakeShader, h1, h2]
  simp

/-! ### Frame lemmas: what each operation can never touch -/

/-- `LoadShader` never touches the program registry, the heap, or the
pointer allocator, and the only events it records are shader creations. -/
theorem LoadShader_frame (env : Env) (st : St) (path : String) (ty : Nat) :
    (LoadShader env st path ty).state.LoadedPrograms = st.LoadedPrograms ∧
    (LoadShader env st path ty).state.heap = st.heap ∧
    (LoadShader env st path ty).state.nextPtr = st.nextPtr ∧
    ∃ d, (LoadShader env st path ty).state.trace = st.trace ++ d ∧
      ∀ e ∈ d, ∃ id, e = GLEvent.createShader id := by
  unfold LoadShader MakeShader
  rcases hrf : env.readFile path with _ | src
  · exact ⟨rfl, rfl, rfl, [], by simp [Res.state], by simp⟩
  · by_cases hc : env.compileOk src ty
    · simp only [hc, if_true]
      by_cases hw : shaderIsInWatchList
          { st with nextGLID := st.nextGLID + 1
                    trace := st.trace ++ [GLEvent.createShader st.nextGLID] } path
      · simp only [hw, if_true]
        exact ⟨rfl, rfl, rfl, [GLEvent.createShader st.nextGLID], by simp [Res.state],
          by simp⟩
      · simp only [hw, if_false]
        rcases hst : env.stat path with _ | t
        · exact ⟨rfl, rfl, rfl, [GLEvent.createShader st.nextGLID],
            by simp [Res.state], by simp⟩
        · exact ⟨rfl, rfl, rfl, [GLEvent.createShader st.nextGLID],
            by simp [Res.state], by simp⟩
    · simp only [hc, if_false]
      exact ⟨rfl, rfl, rfl, [GLEvent.createShader st.nextGLID],
        by simp [Res.state], by simp⟩

/-- The watchlist after `LoadShader` is either unchanged or extended by
exactly the loaded path, and only when that path was not yet watched. -/
theorem LoadShader_watch (env : Env) (st : St) (path : String) (ty : Nat) :
    (LoadShader env st path ty).state.LoadedShaders = st.LoadedShaders ∨
    (path ∉ watchPaths st ∧ ∃ t,
      (LoadShader env st path ty).state.LoadedShaders =
        st.LoadedShaders ++ [⟨path, t⟩]) := by
  unfold LoadShader MakeShader
  rcases hrf : env.readFile path with _ | src
  · exact Or.inl rfl
  · by_cases hc : env.compileOk src ty
    · simp only [hc, if_true]
      by_cases hw : shaderIsInWatchList
          { st with nextGLID := st.nextGLID + 1
                    trace := st.trace ++ [GLEvent.createShader st.nextGLID] } path
      · simp only [hw, if_true]
        exact Or.inl rfl
      · simp only [hw, if_false]
        have hmem : path ∉ watchPaths st := by
          intro hmem
          exact hw ((shaderIsInWatchList_iff _ _).mpr hmem)
        rcases hst : env.stat path with _ | t
        · exact Or.inl rfl
        · exact Or.inr ⟨hmem, t, by simp [Res.state]⟩
    · simp only [hc, if_false]
      exact Or.inl rfl

/-- If `LoadShader` returns successfully, the loaded path is watched in
the resulting state. -/
theorem LoadShader_ok_mem (env : Env) (st : St) (path : String) (ty id : Nat)
    (s : St) (h : LoadShader env st path ty = Res.ok (Except.ok id) s) :
    path ∈ watchPaths s := by
  unfold LoadShader MakeShader at h
  rcases hrf : env.readFile path with _ | src <;> rw [hrf] at h
  · exact absurd h (by simp)
  · by_cases hc : env.compileOk src ty
    · simp only [hc, if_true] at h
      by_cases hw : shaderIsInWatchList
          { st with nextGLID := st.nextGLID + 1
                    trace := st.trace ++ [GLEvent.createShader st.nextGLID] } path
      · simp only [hw, if_true] at h
        obtain ⟨-, rfl⟩ := Res.ok.inj h
        exact (shaderIsInWatchList_iff _ _).mp hw
      · simp only [hw, if_false] at h
        rcases hst : env.stat path with _ | t <;> rw [hst] at h
        · exact absurd h (by simp)
        · obtain ⟨-, rfl⟩ := Res.ok.inj h
          simp [watchPaths]
    · simp only [hc, if_false] at h
      exact absurd h (by simp)

/-- A trace fragment made of shader creations deletes no program. -/
theorem deletedProgs_creates (d : List GLEvent)
    (h : ∀ e ∈ d, ∃ id, e = GLEvent.createShader id) : deletedProgs d = [] := by
  induction d with
  | nil => rfl
  | cons e rest ih =>
    obtain ⟨id, rfl⟩ := h e (List.mem_cons_self e rest)
    exact ih fun e he => h e (List.mem_cons_of_mem _ he)

/-- A trace fragment made of shader creations contains no
`makeProgramCall` marker. -/
theorem makeProgramCalls_creates (d : List GLEvent)
    (h : ∀ e ∈ d, ∃ id, e = GLEvent.createShader id) (n : String) :
    makeProgramCalls d n = 0 := by
  induction d with
  | nil => rfl
  | cons e rest ih =>
    obtain ⟨id, rfl⟩ := h e (List.mem_cons_self e rest)
    simpa [makeProgramCalls] using
      ih fun e he => h e (List.mem_cons_of_mem _ he)

/-- `LoadShader` can only grow the set of watched paths, and preserves
their distinctness. -/
theorem LoadShader_watchPaths (env : Env) (st : St) (path : String) (ty : Nat) :
    watchPaths st ⊆ watchPaths (LoadShader env st path ty).state ∧
    ((watchPaths st).Nodup → (watchPaths (LoadShader env st path ty).state).Nodup) := by
  rcases LoadShader_watch env st path ty with h | ⟨hnm, t, h⟩
  · have hw : watchPaths (LoadShader env st path ty).state = watchPaths st := by
      simp [watchPaths, h]
    rw [hw]
    exact ⟨fun x hx => hx, id⟩
  · have hw : watchPaths (LoadShader env st path ty).state =
        watchPaths st ++ [path] := by
      simp [watchPaths, h]
    rw [hw]
    refine ⟨fun x hx => List.mem_append_left _ hx, fun hnd => ?_⟩
    simp [List.nodup_append, hnd]
    exact hnm

@[simp] theorem deletedProgs_nil : deletedProgs [] = [] := rfl

@[simp] theorem deletedProgs_createShader (i : Nat) :
    deletedProgs [GLEvent.createShader i] = [] := rfl

@[simp] theorem deletedProgs_deleteShader (i : Nat) :
    deletedProgs [GLEvent.deleteShader i] = [] := rfl

@[simp] theorem deletedProgs_createProgram (i : Nat) :
    deletedProgs [GLEvent.createProgram i] = [] := rfl

@[simp] theorem deletedProgs_deleteProgram (i : Nat) :
    deletedProgs [GLEvent.deleteProgram i] = [i] := rfl

@[simp] theorem deletedProgs_mpc (nm : String) :
    deletedProgs [GLEvent.makeProgramCall nm] = [] := rfl

@[simp] theorem deletedProgs_regIns (nm : String) (i : Nat) :
    deletedProgs [GLEvent.registryInsert nm i] = [] := rfl

@[simp] theorem deletedProgs_regUpd (nm : String) (i : Nat) :
    deletedProgs [GLEvent.registryUpdate nm i] = [] := rfl

@[simp] theorem deletedProgs_logError (m : String) :
    deletedProgs [GLEvent.logError m] = [] := rfl

@[simp] theorem makeProgramCalls_nil (m : String) : makeProgramCalls [] m = 0 := rfl

@[simp] theorem makeProgramCalls_createShader (i : Nat) (m : String) :
    makeProgramCalls [GLEvent.createShader i] m = 0 := rfl

@[simp] theorem makeProgramCalls_deleteShader (i : Nat) (m : String) :
    makeProgramCalls [GLEvent.deleteShader i] m = 0 := rfl

@[simp] theorem makeProgramCalls_createProgram (i : Nat) (m : String) :
    makeProgramCalls [GLEvent.createProgram i] m = 0 := rfl

@[simp] theorem makeProgramCalls_deleteProgram (i : Nat) (m : String) :
    makeProgramCalls [GLEvent.deleteProgram i] m = 0 := rfl

@[simp] theorem makeProgramCalls_regIns (nm : String) (i : Nat) (m : String) :
    makeProgramCalls [GLEvent.registryInsert nm i] m = 0 := rfl

@[simp] theorem makeProgramCalls_regUpd (nm : String) (i : Nat) (m : String) :
    makeProgramCalls [GLEvent.registryUpdate nm i] m = 0 := rfl

@[simp] theorem makeProgramCalls_logError (e m : String) :
    makeProgramCalls [GLEvent.logError e] m = 0 := rfl

@[simp] theorem deletedProgs_cons_createShader (i : Nat) (l : List GLEvent) :
    deletedProgs (GLEvent.createShader i :: l) = deletedProgs l := rfl

@[simp] theorem deletedProgs_cons_deleteShader (i : Nat) (l : List GLEvent) :
    deletedProgs (GLEvent.deleteShader i :: l) = deletedProgs l := rfl

@[simp] theorem deletedProgs_cons_createProgram (i : Nat) (l : List GLEvent) :
    deletedProgs (GLEvent.createProgram i :: l) = deletedProgs l := rfl

@[simp] theorem deletedProgs_cons_deleteProgram (i : Nat) (l : List GLEvent) :
    deletedProgs (GLEvent.deleteProgram i :: l) = i :: deletedProgs l := rfl

@[simp] theorem deletedProgs_cons_mpc (nm : String) (l : List GLEvent) :
    deletedProgs (GLEvent.makeProgramCall nm :: l) = deletedProgs l := rfl

@[simp] theorem deletedProgs_cons_regIns (nm : String) (i : Nat) (l : List GLEvent) :
    deletedProgs (GLEvent.registryInsert nm i :: l) = deletedProgs l := rfl

@[simp] theorem deletedProgs_cons_regUpd (nm : String) (i : Nat) (l : List GLEvent) :
    deletedProgs (GLEvent.registryUpdate nm i :: l) = deletedProgs l := rfl

@[simp] theorem deletedProgs_cons_logError (m : String) (l : List GLEvent) :
    deletedProgs (GLEvent.logError m :: l) = deletedProgs l := rfl

@[simp] theorem makeProgramCalls_cons_createShader (i : Nat) (l : List GLEvent)
    (m : String) :
    makeProgramCalls (GLEvent.createShader i :: l) m = makeProgramCalls l m := rfl

@[simp] theorem makeProgramCalls_cons_deleteShader (i : Nat) (l : List GLEvent)
    (m : String) :
    makeProgramCalls (GLEvent.deleteShader i :: l) m = makeProgramCalls l m := rfl

@[simp] theorem makeProgramCalls_cons_createProgram (i : Nat) (l : List GLEvent)
    (m : String) :
    makeProgramCalls (GLEvent.createProgram i :: l) m = makeProgramCalls l m := rfl

@[simp] theorem makeProgramCalls_cons_deleteProgram (i : Nat) (l : List GLEvent)
    (m : String) :
    makeProgramCalls (GLEvent.deleteProgram i :: l) m = makeProgramCalls l m := rfl

@[simp] theorem makeProgramCalls_cons_regIns (nm : String) (i : Nat)
    (l : List GLEvent) (m : String) :
    makeProgramCalls (GLEvent.registryInsert nm i :: l) m = makeProgramCalls l m := rfl

@[simp] theorem makeProgramCalls_cons_regUpd (nm : String) (i : Nat)
    (l : List GLEvent) (m : String) :
    makeProgramCalls (GLEvent.registryUpdate nm i :: l) m = makeProgramCalls l m := rfl

@[simp] theorem makeProgramCalls_cons_logError (e : String) (l : List GLEvent)
    (m : String) :
    makeProgramCalls (GLEvent.logError e :: l) m = makeProgramCalls l m := rfl

@[simp] theorem makeProgramCalls_cons_mpc (nm : String) (l : List GLEvent)
    (m : String) :
    makeProgramCalls (GLEvent.makeProgramCall nm :: l) m =
      (if nm = m then 1 else 0) + makeProgramCalls l m := by
  by_cases h : nm = m <;>
    simp [makeProgramCalls, List.filter_cons, h, Nat.add_comm]

/-- Master case analysis of `MakeProgram`.  In every outcome: watched
paths only grow and stay distinct, exactly one `makeProgramCall` marker
for the given name is recorded, no program object is deleted, and the
pointer allocator moves by at most one.  A failing call (error return or
panic) leaves the registry and the heap untouched.  A successful call
either updates the entry registered under the name in place, or — for a
fresh name — appends a new entry whose record carries an empty
`ProgramName` and the two supplied paths. -/
theorem MakeProgram_master (env : Env) (st : St) (n v f : String) :
    (watchPaths st ⊆ watchPaths (MakeProgram env st n v f).state) ∧
    ((watchPaths st).Nodup → (watchPaths (MakeProgram env st n v f).state).Nodup) ∧
    ((MakeProgram env st n v f).state.nextPtr = st.nextPtr ∨
      (MakeProgram env st n v f).state.nextPtr = st.nextPtr + 1) ∧
    (deletedProgs (MakeProgram env st n v f).state.trace = deletedProgs st.trace) ∧
    (∀ m, makeProgramCalls (MakeProgram env st n v f).state.trace m =
        makeProgramCalls st.trace m + makeProgramCalls [GLEvent.makeProgramCall n] m) ∧
    (∀ m s, MakeProgram env st n v f = Res.panicked m s →
        s.LoadedPrograms = st.LoadedPrograms ∧ s.heap = st.heap) ∧
    (∀ e s, MakeProgram env st n v f = Res.ok (Except.error e) s →
        s.LoadedPrograms = st.LoadedPrograms ∧ s.heap = st.heap) ∧
    (∀ r s, MakeProgram env st n v f = Res.ok (Except.ok r) s →
        v ∈ watchPaths s ∧ f ∈ watchPaths s ∧
        ((alookup st.LoadedPrograms n = some r ∧
            s.LoadedPrograms = st.LoadedPrograms ∧ s.nextPtr = st.nextPtr ∧
            ∃ nid, s.heap = heapUpdateID st.heap r nid) ∨
         (alookup st.LoadedPrograms n = none ∧ r = st.nextPtr ∧
            s.nextPtr = st.nextPtr + 1 ∧
            ∃ nid, s.LoadedPrograms = st.LoadedPrograms ++ [(n, r)] ∧
              s.heap = st.heap ++ [(r, ⟨nid, "", v, f⟩)]))) := by
  have hfr1 := LoadShader_frame env
    { st with trace := st.trace ++ [GLEvent.makeProgramCall n] } v VERTEX_SHADER
  have hws1 := LoadShader_watchPaths env
    { st with trace := st.trace ++ [GLEvent.makeProgramCall n] } v VERTEX_SHADER
  rcases hL1 : LoadShader env
      { st with trace := st.trace ++ [GLEvent.makeProgramCall n] }
      v VERTEX_SHADER with ⟨r1, s1⟩ | ⟨m1, s1⟩
  case panicked =>
    rw [hL1] at hfr1 hws1
    simp only [Res.state] at hfr1 hws1
    obtain ⟨hP1, hH1, hPtr1, d1, hTr1, hCr1⟩ := hfr1
    simp only [MakeProgram, hL1, Res.state]
    refine ⟨hws1.1, hws1.2, Or.inl hPtr1, ?_, ?_, ?_, ?_, ?_⟩
    · rw [hTr1]
      simp [deletedProgs_append, deletedProgs_creates d1 hCr1]
    · intro m
      rw [hTr1]
      simp [makeProgramCalls_append, makeProgramCalls_creates d1 hCr1]
    · intro m s h
      obtain ⟨-, rfl⟩ := Res.panicked.inj h
      exact ⟨hP1, hH1⟩
    · intro e s h
      exact absurd h (by simp)
    · intro r s h
      exact absurd h (by simp)
  case ok =>
    rw [hL1] at hfr1 hws1
    simp only [Res.state] at hfr1 hws1
    obtain ⟨hP1, hH1, hPtr1, d1, hTr1, hCr1⟩ := hfr1
    rcases r1 with e1 | id1
    case error =>
      simp only [MakeProgram, hL1, Res.state]
      refine ⟨hws1.1, hws1.2, Or.inl hPtr1, ?_, ?_, ?_, ?_, ?_⟩
      · rw [hTr1]
        simp [deletedProgs_append, deletedProgs_creates d1 hCr1]
      · intro m
        rw [hTr1]
        simp [makeProgramCalls_append, makeProgramCalls_creates d1 hCr1]
      · intro m s h
        exact absurd h (by simp)
      · intro e s h
        obtain ⟨-, rfl⟩ := Res.ok.inj h
        exact ⟨hP1, hH1⟩
      · intro r s h
        obtain ⟨he, -⟩ := Res.ok.inj h
        exact absurd he (by simp)
    case ok =>
      have hmv : v ∈ watchPaths s1 := LoadShader_ok_mem env _ v _ id1 s1 hL1
      have hfr2 := LoadShader_frame env s1 f FRAGMENT_SHADER
      have hws2 := LoadShader_watchPaths env s1 f FRAGMENT_SHADER
      rcases hL2 : LoadShader env s1 f FRAGMENT_SHADER with ⟨r2, s2⟩ | ⟨m2, s2⟩
      case panicked =>
        rw [hL2] at hfr2 hws2
        simp only [Res.state] at hfr2 hws2
        obtain ⟨hP2, hH2, hPtr2, d2, hTr2, hCr2⟩ := hfr2
        simp only [MakeProgram, hL1, hL2, Res.state]
        refine ⟨hws1.1.trans hws2.1, fun h => hws2.2 (hws1.2 h),
          Or.inl (hPtr2.trans hPtr1), ?_, ?_, ?_, ?_, ?_⟩
        · rw [hTr2, hTr1]
          simp [deletedProgs_append, deletedProgs_creates d1 hCr1,
            deletedProgs_creates d2 hCr2]
        · intro m
          rw [hTr2, hTr1]
          simp [makeProgramCalls_append, makeProgramCalls_creates d1 hCr1,
            makeProgramCalls_creates d2 hCr2]
        · intro m s h
          obtain ⟨-, rfl⟩ := Res.panicked.inj h
          exact ⟨hP2.trans hP1, hH2.trans hH1⟩
        · intro e s h
          exact absurd h (by simp)
        · intro r s h
          exact absurd h (by simp)
      case ok =>
        rw [hL2] at hfr2 hws2
        simp only [Res.state] at hfr2 hws2
        obtain ⟨hP2, hH2, hPtr2, d2, hTr2, hCr2⟩ := hfr2
        rcases r2 with e2 | id2
        case error =>
          simp only [MakeProgram, hL1, hL2, Res.state]
          refine ⟨hws1.1.trans hws2.1, fun h => hws2.2 (hws1.2 h),
            Or.inl (hPtr2.trans hPtr1), ?_, ?_, ?_, ?_, ?_⟩
          · rw [hTr2, hTr1]
            simp [deletedProgs_append, deletedProgs_creates d1 hCr1,
              deletedProgs_creates d2 hCr2]
          · intro m
            rw [hTr2, hTr1]
            simp [makeProgramCalls_append, makeProgramCalls_creates d1 hCr1,
              makeProgramCalls_creates d2 hCr2]
          · intro m s h
            exact absurd h (by simp)
          · intro e s h
            obtain ⟨-, rfl⟩ := Res.ok.inj h
            exact ⟨hP2.trans hP1, hH2.trans hH1⟩
          · intro r s h
            obtain ⟨he, -⟩ := Res.ok.inj h
            exact absurd he (by simp)
        case ok =>
          have hmf : f ∈ watchPaths s2 := LoadShader_ok_mem env s1 f _ id2 s2 hL2
          by_cases hlink : env.linkOk s2.nextGLID
          · rcases halk : alookup s2.LoadedPrograms n with _ | ptr
            ·
              simp only [MakeProgram, hL1, hL2, Res.state, hlink, if_true, halk]
              refine ⟨hws1.1.trans hws2.1, fun h => hws2.2 (hws1.2 h),
                Or.inr (by simp [hPtr2.trans hPtr1]), ?_, ?_, ?_, ?_, ?_⟩
              · rw [hTr2, hTr1]
                simp [deletedProgs_append, deletedProgs_creates d1 hCr1,
                  deletedProgs_creates d2 hCr2]
              · intro m
                rw [hTr2, hTr1]
                simp [makeProgramCalls_append, makeProgramCalls_creates d1 hCr1,
                  makeProgramCalls_creates d2 hCr2]
              · intro m s h
                exact absurd h (by simp)
              · intro e s h
                obtain ⟨he, -⟩ := Res.ok.inj h
                exact absurd he (by simp)
              · intro r s h
                obtain ⟨he, rfl⟩ := Res.ok.inj h
                obtain rfl : s2.nextPtr = r := by simpa using he
                refine ⟨hws2.1 hmv, hmf, Or.inr ?_⟩
                rw [hP2, hP1] at halk
                refine ⟨halk, (hPtr2.trans hPtr1), by simp [hPtr2, hPtr1],
                  s2.nextGLID, by simp [hP2, hP1], by simp [hH2, hH1]⟩
            ·
              simp only [MakeProgram, hL1, hL2, Res.state, hlink, if_true, halk]
              refine ⟨hws1.1.trans hws2.1, fun h => hws2.2 (hws1.2 h),
                Or.inl (hPtr2.trans hPtr1), ?_, ?_, ?_, ?_, ?_⟩
              · rw [hTr2, hTr1]
                simp [deletedProgs_append, deletedProgs_creates d1 hCr1,
                  deletedProgs_creates d2 hCr2]
              · intro m
                rw [hTr2, hTr1]
                simp [makeProgramCalls_append, makeProgramCalls_creates d1 hCr1,
                  makeProgramCalls_creates d2 hCr2]
              · intro m s h
                exact absurd h (by simp)
              · intro e s h
                obtain ⟨he, -⟩ := Res.ok.inj h
                exact absurd he (by simp)
              · intro r s h
                obtain ⟨he, rfl⟩ := Res.ok.inj h
                obtain rfl : ptr = r := by simpa using he
                refine ⟨hws2.1 hmv, hmf, Or.inl ?_⟩
                rw [hP2, hP1] at halk
                exact ⟨halk, by simp [hP2, hP1], hPtr2.trans hPtr1,
                  s2.nextGLID, by simp [hH2, hH1]⟩
          · simp only [MakeProgram, hL1, hL2, Res.state, hlink, if_false]
            refine ⟨hws1.1.trans hws2.1, fun h => hws2.2 (hws1.2 h),
              Or.inl (hPtr2.trans hPtr1), ?_, ?_, ?_, ?_, ?_⟩
            · rw [hTr2, hTr1]
              simp [deletedProgs_append, deletedProgs_creates d1 hCr1,
                deletedProgs_creates d2 hCr2]
            · intro m
              rw [hTr2, hTr1]
              simp [makeProgramCalls_append, makeProgramCalls_creates d1 hCr1,
                makeProgramCalls_creates d2 hCr2]
            · intro m s h
              obtain ⟨-, rfl⟩ := Res.panicked.inj h
              exact ⟨hP2.trans hP1, hH2.trans hH1⟩
            · intro e s h
              exact absurd h (by simp)
            · intro r s h
              exact absurd h (by simp)

theorem hlookup_append (h1 h2 : List (Nat × Program)) (k : Nat) :
    hlookup (h1 ++ h2) k = (hlookup h1 k).or (hlookup h2 k) := by
  induction h1 with
  | nil => simp [hlookup]
  | cons c rest ih =>
    obtain ⟨a, v⟩ := c
    by_cases hk : a = k <;> simp [hlookup, hk, ih]

theorem hlookup_none_of_lt (h : List (Nat × Program)) (p : Nat)
    (hall : ∀ c ∈ h, c.1 < p) : hlookup h p = none := by
  induction h with
  | nil => rfl
  | cons c rest ih =>
    obtain ⟨a, v⟩ := c
    have ha : a < p := hall (a, v) (List.mem_cons_self _ _)
    have : ¬ a = p := Nat.ne_of_lt ha
    simp [hlookup, this]
    exact ih fun c hc => hall c (List.mem_cons_of_mem _ hc)

theorem keys_heapUpdateID (h : List (Nat × Program)) (p i : Nat) :
    ∀ c ∈ heapUpdateID h p i, ∃ c' ∈ h, c.1 = c'.1 := by
  intro c hc
  obtain ⟨c', hc', heq⟩ := List.mem_map.mp hc
  refine ⟨c', hc', ?_⟩
  by_cases hp : c'.1 = p <;> simp [hp] at heq <;> simp [← heq, hp]

/-- `MakeProgram` preserves the watchlist invariant and heap
well-formedness, whatever the outcome. -/
theorem MakeProgram_WatchInv (env : Env) (st : St) (n v f : String)
    (h : WatchInv st ∧ PtrFresh st) :
    WatchInv (MakeProgram env st n v f).state ∧
    PtrFresh (MakeProgram env st n v f).state := by
  obtain ⟨hInv, hFresh⟩ := h
  obtain ⟨hsub, hnd, hptr, -, -, hpan, herr, hok⟩ := MakeProgram_master env st n v f
  have hle : st.nextPtr ≤ (MakeProgram env st n v f).state.nextPtr := by
    rcases hptr with h | h <;> omega
  rcases hres : MakeProgram env st n v f with ⟨r, s⟩ | ⟨m, s⟩
  case panicked =>
    rw [hres] at hsub hnd hle
    simp only [Res.state] at hsub hnd hle
    simp only [Res.state]
    obtain ⟨hP, hH⟩ := hpan m s hres
    refine ⟨⟨hnd hInv.1, ?_⟩, ?_⟩
    · intro c hc prog hprog
      rw [hP] at hc
      rw [hH] at hprog
      obtain ⟨h1, h2⟩ := hInv.2 c hc prog hprog
      exact ⟨hsub h1, hsub h2⟩
    · intro c hc
      rw [hH] at hc
      exact Nat.lt_of_lt_of_le (hFresh c hc) hle
  case ok =>
    rw [hres] at hsub hnd hle
    simp only [Res.state] at hsub hnd hle
    simp only [Res.state]
    rcases r with e | r
    case error =>
      obtain ⟨hP, hH⟩ := herr e s hres
      refine ⟨⟨hnd hInv.1, ?_⟩, ?_⟩
      · intro c hc prog hprog
        rw [hP] at hc
        rw [hH] at hprog
        obtain ⟨h1, h2⟩ := hInv.2 c hc prog hprog
        exact ⟨hsub h1, hsub h2⟩
      · intro c hc
        rw [hH] at hc
        exact Nat.lt_of_lt_of_le (hFresh c hc) hle
    case ok =>
      obtain ⟨hmv, hmf, hshape⟩ := hok r s hres
      rcases hshape with ⟨halk, hP, hPtr, nid, hH⟩ |
        ⟨halk, rfl, hPtr, nid, hP, hH⟩
      · -- in-place update of the existing entry
        refine ⟨⟨hnd hInv.1, ?_⟩, ?_⟩
        · intro c hc prog hprog
          rw [hP] at hc
          rw [hH, hlookup_updateID] at hprog
          by_cases hk : c.2 = r
          · rw [if_pos hk] at hprog
            rcases ho : hlookup st.heap c.2 with _ | orig
            · rw [hk, ← hk, ho] at hprog
              exact absurd hprog (by simp)
            · rw [hk, ← hk, ho] at hprog
              obtain rfl : { orig with ID := nid } = prog := by
                simpa using hprog
              obtain ⟨h1, h2⟩ := hInv.2 c hc orig ho
              exact ⟨hsub h1, hsub h2⟩
          · rw [if_neg hk] at hprog
            obtain ⟨h1, h2⟩ := hInv.2 c hc prog hprog
            exact ⟨hsub h1, hsub h2⟩
        · intro c hc
          rw [hH] at hc
          obtain ⟨c', hc', heq⟩ := keys_heapUpdateID st.heap r nid c hc
          rw [heq]
          exact Nat.lt_of_lt_of_le (hFresh c' hc') hle
      · -- fresh entry appended
        refine ⟨⟨hnd hInv.1, ?_⟩, ?_⟩
        · intro c hc prog hprog
          rw [hP] at hc
          rw [hH, hlookup_append] at hprog
          rcases List.mem_append.mp hc with hold | hnew
          · rcases ho : hlookup st.heap c.2 with _ | orig
            · rw [ho] at hprog
              simp only [Option.or] at hprog
              rcases hc2 : decide (st.nextPtr = c.2) with _ | _
              · rw [hlookup, if_neg (by simpa using hc2)] at hprog
                exact absurd hprog (by simp [hlookup])
              · have : st.nextPtr = c.2 := by simpa using hc2
                rw [hlookup, if_pos this] at hprog
                obtain rfl : (⟨nid, "", v, f⟩ : Program) = prog := by
                  simpa using hprog
                exact ⟨hmv, hmf⟩
            · rw [ho] at hprog
              simp only [Option.or] at hprog
              obtain rfl : orig = prog := by simpa using hprog
              obtain ⟨h1, h2⟩ := hInv.2 c hold orig ho
              exact ⟨hsub h1, hsub h2⟩
          · obtain rfl : c = (n, st.nextPtr) := by simpa using hnew
            have ho : hlookup st.heap st.nextPtr = none :=
              hlookup_none_of_lt st.heap st.nextPtr hFresh
            rw [ho] at hprog
            simp only [Option.or] at hprog
            rw [hlookup, if_pos rfl] at hprog
            obtain rfl : (⟨nid, "", v, f⟩ : Program) = prog := by
              simpa using hprog
            exact ⟨hmv, hmf⟩
        · intro c hc
          rw [hH] at hc
          rcases List.mem_append.mp hc with hold | hnew
          · have := hFresh c hold
            omega
          · obtain rfl : c = (st.nextPtr, ⟨nid, "", v, f⟩) := by simpa using hnew
            omega

/-! ### Lemmas about `ReloadProgram` -/

/-- A failed rebuild attempt (Go error returned to `HotloadShaders`, or a
panic) leaves the program registry and the heap exactly as they were and
deletes no program object. -/
theorem ReloadProgram_fail_frame (env : Env) (st : St) (n : String) (p : Nat)
    (changed : List String) (s : St)
    (h : (∃ e, ReloadProgram env st n p changed = Res.ok (some e) s) ∨
         (∃ m, ReloadProgram env st n p changed = Res.panicked m s)) :
    s.LoadedPrograms = st.LoadedPrograms ∧ s.heap = st.heap ∧
    deletedProgs s.trace = deletedProgs st.trace := by
  rcases hlk : hlookup st.heap p with _ | prog
  · rcases h with ⟨e, he⟩ | ⟨m, hm⟩
    · simp only [ReloadProgram, hlk] at he
      exact absurd he (by simp)
    · simp only [ReloadProgram, hlk] at hm
      obtain ⟨-, rfl⟩ := Res.panicked.inj hm
      exact ⟨rfl, rfl, rfl⟩
  · by_cases hb : changed.any
        (fun q => q = prog.VertexShaderFilePath ∨
          q = prog.FragmentShaderFilePath) = true
    · obtain ⟨-, -, -, hdel, -, hpan, herr, -⟩ := MakeProgram_master env st n
        prog.VertexShaderFilePath prog.FragmentShaderFilePath
      rcases hmk : MakeProgram env st n prog.VertexShaderFilePath
          prog.FragmentShaderFilePath with ⟨r, s1⟩ | ⟨m1, s1⟩
      · rcases r with e1 | id1
        · rw [hmk] at hdel
          simp only [Res.state] at hdel
          obtain ⟨hP, hH⟩ := herr e1 s1 hmk
          rcases h with ⟨e, he⟩ | ⟨m, hm⟩
          · simp only [ReloadProgram, hlk, hb, if_true, hmk] at he
            obtain ⟨h1, rfl⟩ := Res.ok.inj he
            exact ⟨hP, hH, hdel⟩
          · simp only [ReloadProgram, hlk, hb, if_true, hmk] at hm
            exact absurd hm (by simp)
        · rcases h with ⟨e, he⟩ | ⟨m, hm⟩
          · simp only [ReloadProgram, hlk, hb, if_true, hmk] at he
            obtain ⟨h1, -⟩ := Res.ok.inj he
            exact absurd h1 (by simp)
          · simp only [ReloadProgram, hlk, hb, if_true, hmk] at hm
            exact absurd hm (by simp)
      · rw [hmk] at hdel
        simp only [Res.state] at hdel
        obtain ⟨hP, hH⟩ := hpan m1 s1 hmk
        rcases h with ⟨e, he⟩ | ⟨m, hm⟩
        · simp only [ReloadProgram, hlk, hb, if_true, hmk] at he
          exact absurd he (by simp)
        · simp only [ReloadProgram, hlk, hb, if_true, hmk] at hm
          obtain ⟨-, rfl⟩ := Res.panicked.inj hm
          exact ⟨hP, hH, hdel⟩
    · rcases h with ⟨e, he⟩ | ⟨m, hm⟩
      · simp only [ReloadProgram, hlk, hb] at he
        exact absurd he (by simp)
      · simp only [ReloadProgram, hlk, hb] at hm
        exact absurd hm (by simp)

/-- Exactly one rebuild attempt is recorded by `ReloadProgram` for the
processed program when one of its dependencies changed, and none
otherwise — whatever the outcome of the attempt. -/
theorem ReloadProgram_count (env : Env) (st : St) (n : String) (p : Nat)
    (changed : List String) (m : String) :
    makeProgramCalls (ReloadProgram env st n p changed).state.trace m =
      makeProgramCalls st.trace m +
        (if affectedAt st p changed then (if n = m then 1 else 0) else 0) := by
  rcases hlk : hlookup st.heap p with _ | prog
  · simp [ReloadProgram, hlk, Res.state, affectedAt]
  · have haff : affectedAt st p changed = changed.any
        (fun q => q = prog.VertexShaderFilePath ∨
          q = prog.FragmentShaderFilePath) := by
      simp [affectedAt, hlk]
    by_cases hb : changed.any
        (fun q => q = prog.VertexShaderFilePath ∨
          q = prog.FragmentShaderFilePath) = true
    · have hbex : ∃ x ∈ changed, x = prog.VertexShaderFilePath ∨
          x = prog.FragmentShaderFilePath := by simpa using hb
      obtain ⟨-, -, -, -, hcnt, -, -, -⟩ := MakeProgram_master env st n
        prog.VertexShaderFilePath prog.FragmentShaderFilePath
      rcases hmk : MakeProgram env st n prog.VertexShaderFilePath
          prog.FragmentShaderFilePath with ⟨r, s1⟩ | ⟨m1, s1⟩
      · rcases r with e1 | id1
        · simp only [ReloadProgram, hlk, hb, if_true, hmk, Res.state]
          rw [hmk] at hcnt
          simp only [Res.state] at hcnt
          rw [hcnt m]
          simp [haff, hb, hbex]
        · simp only [ReloadProgram, hlk, hb, if_true, hmk, Res.state]
          rw [hmk] at hcnt
          simp only [Res.state] at hcnt
          rw [makeProgramCalls_append, hcnt m]
          simp [haff, hb, hbex]
      · simp only [ReloadProgram, hlk, hb, if_true, hmk, Res.state]
        rw [hmk] at hcnt
        simp only [Res.state] at hcnt
        rw [hcnt m]
        simp [haff, hb, hbex]
    · have hbnex : ¬ ∃ x ∈ changed, x = prog.VertexShaderFilePath ∨
          x = prog.FragmentShaderFilePath := by simpa using hb
      simp only [ReloadProgram, hlk, hb, if_false, Res.state]
      simp [haff, hb, hbnex]

/-- When the processed name is registered, `ReloadProgram` leaves the
registry binding list unchanged and changes nothing in the heap except
handle values. -/
theorem ReloadProgram_stable (env : Env) (st : St) (n : String) (p : Nat)
    (changed : List String)
    (hreg : (alookup st.LoadedPrograms n).isSome) :
    (ReloadProgram env st n p changed).state.LoadedPrograms = st.LoadedPrograms ∧
    ∀ k, heapShape (ReloadProgram env st n p changed).state k = heapShape st k := by
  rcases hlk : hlookup st.heap p with _ | prog
  · simp [ReloadProgram, hlk, Res.state, heapShape]
  · by_cases hb : changed.any
        (fun q => q = prog.VertexShaderFilePath ∨
          q = prog.FragmentShaderFilePath) = true
    · obtain ⟨-, -, -, -, -, hpan, herr, hok⟩ := MakeProgram_master env st n
        prog.VertexShaderFilePath prog.FragmentShaderFilePath
      rcases hmk : MakeProgram env st n prog.VertexShaderFilePath
          prog.FragmentShaderFilePath with ⟨r, s1⟩ | ⟨m1, s1⟩
      · rcases r with e1 | id1
        · obtain ⟨hP, hH⟩ := herr e1 s1 hmk
          simp only [ReloadProgram, hlk, hb, if_true, hmk, Res.state]
          exact ⟨hP, fun k => by simp [heapShape, hH]⟩
        · obtain ⟨-, -, hshape⟩ := hok id1 s1 hmk
          rcases hshape with ⟨halk, hP, -, nid, hH⟩ | ⟨halk, -⟩
          · simp only [ReloadProgram, hlk, hb, if_true, hmk, Res.state]
            refine ⟨hP, fun k => ?_⟩
            simp only [heapShape, hH, hlookup_updateID]
            by_cases hk : k = id1
            · rw [if_pos hk]
              rcases hlookup st.heap k with _ | q <;> simp [stripID]
            · rw [if_neg hk]
          · rw [halk] at hreg
            exact absurd hreg (by simp)
      · obtain ⟨hP, hH⟩ := hpan m1 s1 hmk
        simp only [ReloadProgram, hlk, hb, if_true, hmk, Res.state]
        exact ⟨hP, fun k => by simp [heapShape, hH]⟩
    · simp only [ReloadProgram, hlk, hb, if_false, Res.state]
      exact ⟨rfl, fun k => rfl⟩

/-- Two states with the same heap shape agree on which programs are
affected by a change set. -/
theorem affectedAt_congr (st st' : St)
    (h : ∀ k, heapShape st' k = heapShape st k) (p : Nat)
    (changed : List String) :
    affectedAt st' p changed = affectedAt st p changed := by
  have hp := h p
  unfold heapShape at hp
  unfold affectedAt
  rcases h1 : hlookup st'.heap p with _ | p1 <;>
    rcases h2 : hlookup st.heap p with _ | p2 <;>
    rw [h1, h2] at hp <;> simp at hp ⊢
  obtain ⟨-, hv, hf⟩ : p1.ProgramName = p2.ProgramName ∧
      p1.VertexShaderFilePath = p2.VertexShaderFilePath ∧
      p1.FragmentShaderFilePath = p2.FragmentShaderFilePath := by
    simpa [stripID, Program.mk.injEq] using hp
  rw [hv, hf]

/-- `ReloadProgram` preserves the watchlist invariant and heap
well-formedness. -/
theorem ReloadProgram_WatchInv (env : Env) (st : St) (n : String) (p : Nat)
    (changed : List String) (h : WatchInv st ∧ PtrFresh st) :
    WatchInv (ReloadProgram env st n p changed).state ∧
    PtrFresh (ReloadProgram env st n p changed).state := by
  rcases hlk : hlookup st.heap p with _ | prog
  · simp only [ReloadProgram, hlk, Res.state]
    exact h
  · by_cases hb : changed.any
        (fun q => q = prog.VertexShaderFilePath ∨
          q = prog.FragmentShaderFilePath) = true
    · have hmw := MakeProgram_WatchInv env st n prog.VertexShaderFilePath
        prog.FragmentShaderFilePath h
      rcases hmk : MakeProgram env st n prog.VertexShaderFilePath
          prog.FragmentShaderFilePath with ⟨r, s1⟩ | ⟨m1, s1⟩
      · rcases r with e1 | id1
        · simp only [ReloadProgram, hlk, hb, if_true, hmk, Res.state]
          rw [hmk] at hmw
          simpa [Res.state] using hmw
        · simp only [ReloadProgram, hlk, hb, if_true, hmk, Res.state]
          rw [hmk] at hmw
          simpa [Res.state] using hmw
      · simp only [ReloadProgram, hlk, hb, if_true, hmk, Res.state]
        rw [hmk] at hmw
        simpa [Res.state] using hmw
    · simp only [ReloadProgram, hlk, hb, if_false, Res.state]
      exact h

/-! ### Lemmas about `GetChangedShaderFiles` -/

/-- The poll never renames watchlist entries, even when it panics
half-way. -/
theorem getChangedAux_paths (env : Env) (l : List ShaderFileInfo) :
    ((getChangedAux env l).1).map ShaderFileInfo.FilePath =
      l.map ShaderFileInfo.FilePath := by
  induction l with
  | nil => rfl
  | cons info rest ih =>
    rcases hs : env.stat info.FilePath with _ | t
    · simp [getChangedAux, hs]
    · rcases haux : getChangedAux env rest with ⟨rest1, files, pn⟩
      rw [haux] at ih
      by_cases ht : t = info.LastModified <;>
        simp [getChangedAux, hs, haux, ht] <;> simpa using ih

/-- A stat failure on any watched file makes the poll panic. -/
theorem getChangedAux_panic (env : Env) (l : List ShaderFileInfo)
    (h : ∃ info ∈ l, env.stat info.FilePath = none) :
    ((getChangedAux env l).2.2).isSome := by
  induction l with
  | nil => simp at h
  | cons info rest ih =>
    rcases hs : env.stat info.FilePath with _ | t
    · simp [getChangedAux, hs]
    · obtain ⟨i, hi, hnone⟩ := h
      rcases List.mem_cons.mp hi with rfl | hmem
      · rw [hs] at hnone
        cases hnone
      · have hrec := ih ⟨i, hmem, hnone⟩
        rcases haux : getChangedAux env rest with ⟨rest1, files, pn⟩
        rw [haux] at hrec
        by_cases ht : t = info.LastModified <;>
          simp [getChangedAux, hs, haux, ht] <;> simpa using hrec

/-- Every path reported by the poll is a watched path. -/
theorem getChangedAux_files_sub (env : Env) (l : List ShaderFileInfo) :
    ∀ x ∈ (getChangedAux env l).2.1, x ∈ l.map ShaderFileInfo.FilePath := by
  induction l with
  | nil => simp [getChangedAux]
  | cons info rest ih =>
    rcases hs : env.stat info.FilePath with _ | t
    · simp [getChangedAux, hs]
    · rcases haux : getChangedAux env rest with ⟨rest1, files, pn⟩
      rw [haux] at ih
      by_cases ht : t = info.LastModified <;>
        simp [getChangedAux, hs, haux, ht] <;>
        intro x hx <;> exact Or.inr (by simpa using ih x hx)

/-- Full description of a poll in which every stat succeeds: every stored
time is refreshed to the fresh value, and exactly the entries whose fresh
time differs from the stored one are reported, in watchlist order. -/
theorem getChangedAux_spec (env : Env) (l : List ShaderFileInfo)
    (h : ∀ info ∈ l, (env.stat info.FilePath).isSome) :
    getChangedAux env l =
      (l.map (refreshInfo env),
       (l.filter (changedTest env)).map ShaderFileInfo.FilePath,
       none) := by
  induction l with
  | nil => rfl
  | cons info rest ih =>
    have hs' := h info (List.mem_cons_self _ _)
    rcases hs : env.stat info.FilePath with _ | t
    · rw [hs] at hs'
      cases hs'
    · have ihr := ih fun i hi => h i (List.mem_cons_of_mem _ hi)
      by_cases ht : t = info.LastModified
      · have hre : refreshInfo env info = info := by
          subst ht
          simp [refreshInfo, hs]
        have hch : changedTest env info = false := by
          simp [changedTest, hs, ht]
        simp [getChangedAux, hs, ihr, ht, List.filter_cons, hch, hre]
      · have hre : refreshInfo env info = { info with LastModified := t } := by
          simp [refreshInfo, hs]
        have hch : changedTest env info = true := by
          simp [changedTest, hs]
          exact ht
        simp [getChangedAux, hs, ihr, ht, List.filter_cons, hch, hre]

/-- `GetChangedShaderFiles` under universally successful stats. -/
theorem GetChangedShaderFiles_spec (env : Env) (st : St)
    (h : ∀ info ∈ st.LoadedShaders, (env.stat info.FilePath).isSome) :
    GetChangedShaderFiles env st =
      Res.ok ((st.LoadedShaders.filter (changedTest env)).map ShaderFileInfo.FilePath)
        { st with LoadedShaders := st.LoadedShaders.map (refreshInfo env) } := by
  simp [GetChangedShaderFiles, getChangedAux_spec env _ h]

/-- After a successful poll, every stored time equals the filesystem
time. -/
theorem refreshed_unchanged (env : Env) (l : List ShaderFileInfo)
    (h : ∀ info ∈ l, (env.stat info.FilePath).isSome) :
    ∀ info ∈ l.map (refreshInfo env),
      env.stat info.FilePath = some info.LastModified := by
  intro info hi
  obtain ⟨i, hi', rfl⟩ := List.mem_map.mp hi
  have hs' := h i hi'
  rcases hs : env.stat i.FilePath with _ | t
  · rw [hs] at hs'
    cases hs'
  · simp [refreshInfo, hs]

/-- Entries whose stored time matches the filesystem are never
reported. -/
theorem filter_changed_nil (env : Env) (l : List ShaderFileInfo)
    (h : ∀ info ∈ l, env.stat info.FilePath = some info.LastModified) :
    l.filter (changedTest env) = [] := by
  rw [List.filter_eq_nil]
  intro info hi
  simp [changedTest, h info hi]

/-- Refreshing entries whose stored times already match the filesystem is
the identity. -/
theorem map_refresh_id (env : Env) (l : List ShaderFileInfo)
    (h : ∀ info ∈ l, env.stat info.FilePath = some info.LastModified) :
    l.map (refreshInfo env) = l := by
  have : l.map (refreshInfo env) = l.map id := by
    apply List.map_congr_left
    intro info hi
    simp [refreshInfo, h info hi]
  simpa using this

/-- Counting a path in the reported list equals counting matching
watchlist entries. -/
theorem count_map_filter (l : List ShaderFileInfo)
    (q : ShaderFileInfo → Bool) (P : String) :
    ((l.filter q).map ShaderFileInfo.FilePath).count P =
      (l.filter (fun i => q i && (i.FilePath == P))).length := by
  induction l with
  | nil => rfl
  | cons i rest ih =>
    by_cases hq : q i = true
    · by_cases hp : i.FilePath = P
      · simp [List.filter_cons, hq, hp, List.count_cons, ih]
      · simp [List.filter_cons, hq, hp, List.count_cons, ih]
    · simp [List.filter_cons, hq, ih]

/-- With distinct watched paths, a predicate holding at the unique entry
for a path selects exactly one entry. -/
theorem length_filter_unique (l : List ShaderFileInfo) (P : String)
    (q : ShaderFileInfo → Bool)
    (hnd : (l.map ShaderFileInfo.FilePath).Nodup) (info0 : ShaderFileInfo)
    (h0 : info0 ∈ l) (hP : info0.FilePath = P) (hq : q info0 = true) :
    (l.filter (fun i => q i && (i.FilePath == P))).length = 1 := by
  induction l with
  | nil => cases h0
  | cons i rest ih =>
    rw [List.map_cons, List.nodup_cons] at hnd
    rcases List.mem_cons.mp h0 with rfl | hmem
    · have hrest : rest.filter (fun i => q i && (i.FilePath == P)) = [] := by
        rw [List.filter_eq_nil]
        intro j hj
        have : j.FilePath ≠ P := by
          intro hjP
          exact hnd.1 (hP ▸ hjP ▸ List.mem_map_of_mem ShaderFileInfo.FilePath hj)
        simp [this]
      simp [List.filter_cons, hq, hP, hrest]
    · have hip : i.FilePath ≠ P := by
        intro he
        exact hnd.1 (he ▸ hP ▸ List.mem_map_of_mem ShaderFileInfo.FilePath hmem)
      simp [List.filter_cons, hip]
      exact ih hnd.2 hmem

/-! ### Lemmas about the hot-reload loop -/

theorem WatchInv_of_paths_eq (st : St) (l1 : List ShaderFileInfo)
    (hpaths : l1.map ShaderFileInfo.FilePath =
      st.LoadedShaders.map ShaderFileInfo.FilePath)
    (h : WatchInv st) : WatchInv { st with LoadedShaders := l1 } := by
  have hw : watchPaths { st with LoadedShaders := l1 } = watchPaths st := hpaths
  constructor
  · rw [hw]
    exact h.1
  · intro c hc prog hprog
    rw [hw]
    exact h.2 c hc prog hprog

/-- The change poll preserves the watchlist invariant and heap
well-formedness: it only refreshes stored timestamps. -/
theorem GetChangedShaderFiles_WatchInv (env : Env) (st : St)
    (h : WatchInv st ∧ PtrFresh st) :
    WatchInv (GetChangedShaderFiles env st).state ∧
    PtrFresh (GetChangedShaderFiles env st).state := by
  have hpaths := getChangedAux_paths env st.LoadedShaders
  rcases haux : getChangedAux env st.LoadedShaders with ⟨l1, files, pn⟩
  rw [haux] at hpaths
  have hInv : WatchInv { st with LoadedShaders := l1 } :=
    WatchInv_of_paths_eq st l1 hpaths h.1
  have hFr : PtrFresh { st with LoadedShaders := l1 } := h.2
  rcases pn with _ | msg <;>
    simp only [GetChangedShaderFiles, haux, Res.state] <;> exact ⟨hInv, hFr⟩

/-- The per-poll program loop preserves the watchlist invariant and heap
well-formedness. -/
theorem hotloadLoop_WatchInv (env : Env) (changed : List String)
    (L : List (String × Nat)) (st : St) (h : WatchInv st ∧ PtrFresh st) :
    WatchInv (hotloadLoop env changed L st).state ∧
    PtrFresh (hotloadLoop env changed L st).state := by
  induction L generalizing st with
  | nil =>
    simp only [hotloadLoop, Res.state]
    exact h
  | cons c rest ih =>
    obtain ⟨name, ptr⟩ := c
    have hr := ReloadProgram_WatchInv env st name ptr changed h
    rcases hR : ReloadProgram env st name ptr changed with ⟨a, st1⟩ | ⟨m, st1⟩
    · rw [hR] at hr
      simp only [Res.state] at hr
      rcases a with _ | e
      · simp only [hotloadLoop, hR]
        exact ih st1 hr
      · simp only [hotloadLoop, hR]
        exact ih { st1 with trace := st1.trace ++ [GLEvent.logError e] } hr
    · rw [hR] at hr
      simp only [Res.state] at hr
      simp only [hotloadLoop, hR, Res.state]
      exact hr

/-- `HotloadShaders` preserves the watchlist invariant and heap
well-formedness. -/
theorem HotloadShaders_WatchInv (env : Env) (st : St)
    (h : WatchInv st ∧ PtrFresh st) :
    WatchInv (HotloadShaders env st).state ∧
    PtrFresh (HotloadShaders env st).state := by
  have hg := GetChangedShaderFiles_WatchInv env st h
  rcases hG : GetChangedShaderFiles env st with ⟨files, st1⟩ | ⟨m, st1⟩
  · rw [hG] at hg
    simp only [Res.state] at hg
    by_cases hlen : files.length > 0
    · simp only [HotloadShaders, hG, hlen, if_true]
      exact hotloadLoop_WatchInv env files st1.LoadedPrograms st1 hg
    · simp only [HotloadShaders, hG, hlen, if_false, Res.state]
      exact hg
  · rw [hG] at hg
    simp only [Res.state] at hg
    simp only [HotloadShaders, hG, Res.state]
    exact hg

/-- Rebuild-attempt accounting for a completed loop pass: every program
whose dependencies intersect the changed set is attempted exactly once,
every other program not at all. -/
theorem hotloadLoop_count (env : Env) (changed : List String)
    (L : List (String × Nat)) (st : St) (sF : St) (m : String)
    (hok : hotloadLoop env changed L st = Res.ok () sF)
    (hreg : ∀ c ∈ L, (alookup st.LoadedPrograms c.1).isSome) :
    makeProgramCalls sF.trace m = makeProgramCalls st.trace m +
      (L.filter (fun c => affectedAt st c.2 changed && (c.1 == m))).length := by
  induction L generalizing st with
  | nil =>
    simp only [hotloadLoop] at hok
    obtain ⟨-, rfl⟩ := Res.ok.inj hok
    simp
  | cons c rest ih =>
    obtain ⟨name, ptr⟩ := c
    have hrcount := ReloadProgram_count env st name ptr changed m
    have hstable := ReloadProgram_stable env st name ptr changed
      (hreg (name, ptr) (List.mem_cons_self _ _))
    rcases hR : ReloadProgram env st name ptr changed with ⟨a, st1⟩ | ⟨mm, st1⟩
    · rw [hR] at hrcount hstable
      simp only [Res.state] at hrcount hstable
      obtain ⟨hPst, hShape⟩ := hstable
      rcases a with _ | e
      · simp only [hotloadLoop, hR] at hok
        have hreg1 : ∀ c ∈ rest, (alookup st1.LoadedPrograms c.1).isSome := by
          intro c hc
          rw [hPst]
          exact hreg c (List.mem_cons_of_mem _ hc)
        have hrec := ih st1 hok hreg1
        have hfil : rest.filter (fun c => affectedAt st1 c.2 changed && (c.1 == m)) =
            rest.filter (fun c => affectedAt st c.2 changed && (c.1 == m)) := by
          apply List.filter_congr
          intro c hc
          rw [affectedAt_congr st st1 hShape c.2 changed]
        rw [hrec, hfil, hrcount, List.filter_cons]
        by_cases ha : affectedAt st ptr changed <;>
          by_cases hm : name = m <;> simp [ha, hm] <;> omega
      · simp only [hotloadLoop, hR] at hok
        have hreg1 : ∀ c ∈ rest,
            (alookup ({ st1 with trace := st1.trace ++ [GLEvent.logError e] } : St).LoadedPrograms c.1).isSome := by
          intro c hc
          rw [show ({ st1 with trace := st1.trace ++ [GLEvent.logError e] } : St).LoadedPrograms = st1.LoadedPrograms from rfl, hPst]
          exact hreg c (List.mem_cons_of_mem _ hc)
        have hrec := ih { st1 with trace := st1.trace ++ [GLEvent.logError e] } hok hreg1
        have hfil : rest.filter (fun c =>
            affectedAt { st1 with trace := st1.trace ++ [GLEvent.logError e] } c.2 changed && (c.1 == m)) =
            rest.filter (fun c => affectedAt st c.2 changed && (c.1 == m)) := by
          apply List.filter_congr
          intro c hc
          rw [affectedAt_congr st
            { st1 with trace := st1.trace ++ [GLEvent.logError e] } hShape c.2 changed]
        rw [hrec, hfil]
        rw [show ({ st1 with trace := st1.trace ++ [GLEvent.logError e] } : St).trace = st1.trace ++ [GLEvent.logError e] from rfl]
        rw [makeProgramCalls_append, hrcount, List.filter_cons]
        by_cases ha : affectedAt st ptr changed <;>
          by_cases hm : name = m <;> simp [ha, hm] <;> omega
    · rw [hR] at hrcount
      simp only [hotloadLoop, hR] at hok
      exact absurd hok (by simp)

/-! ### The claims -/

/-- Claim C1: for every registered program, if a hot-reload rebuild
attempt fails (shader compile failure, or link failure — the latter
surfacing as a panic), the registry entry for that program is not
modified: the program stored at its pointer after the attempt equals the
one before, so the handle is unchanged, and no program object is deleted,
in particular not the old one. -/
theorem claim_C1 (env : Env) (st : St) (name : String) (ptr : Nat)
    (changed : List String) (st₁ : St)
    (h : (∃ e, ReloadProgram env st name ptr changed = Res.ok (some e) st₁) ∨
         (∃ m, ReloadProgram env st name ptr changed = Res.panicked m st₁)) :
    hlookup st₁.heap ptr = hlookup st.heap ptr ∧
    st₁.LoadedPrograms = st.LoadedPrograms ∧
    deletedProgs st₁.trace = deletedProgs st.trace := by
  obtain ⟨hP, hH, hD⟩ := ReloadProgram_fail_frame env st name ptr changed st₁ h
  exact ⟨by rw [hH], hP, hD⟩

/-- Witness for C1 at a concrete failing rebuild: program `"p"` of `st0`
is affected by a change of `"v"` and its recompilation fails. -/
theorem claim_C1_witness :
    hlookup (ReloadProgram envCompileBad st0 "p" 0 ["v"]).state.heap 0 =
      hlookup st0.heap 0 ∧
    (ReloadProgram envCompileBad st0 "p" 0 ["v"]).state.LoadedPrograms =
      st0.LoadedPrograms ∧
    deletedProgs (ReloadProgram envCompileBad st0 "p" 0 ["v"]).state.trace =
      deletedProgs st0.trace :=
  claim_C1 envCompileBad st0 "p" 0 ["v"]
    (ReloadProgram envCompileBad st0 "p" 0 ["v"]).state
    (Or.inl ⟨"failed to compile src-v", rfl⟩)

/-- Claim C7: if a previously registered watched file can no longer be
stat'ed during a change poll, the poll panics (the process aborts) rather
than skipping the file: both `GetChangedShaderFiles` and the enclosing
`HotloadShaders` end in a panic. -/
theorem claim_C7 (env : Env) (st : St) (info : ShaderFileInfo)
    (h1 : info ∈ st.LoadedShaders) (h2 : env.stat info.FilePath = none) :
    (GetChangedShaderFiles env st).isPanic = true ∧
    (HotloadShaders env st).isPanic = true := by
  have hp := getChangedAux_panic env st.LoadedShaders ⟨info, h1, h2⟩
  rcases haux : getChangedAux env st.LoadedShaders with ⟨l1, files, pn⟩
  rw [haux] at hp
  rcases pn with _ | msg
  · simp at hp
  · constructor
    · simp [GetChangedShaderFiles, haux, Res.isPanic]
    · simp [HotloadShaders, GetChangedShaderFiles, haux, Res.isPanic]

/-- Witness for C7: every stat fails in `envStatBad`, so polling `st0`
panics. -/
theorem claim_C7_witness :
    (GetChangedShaderFiles envStatBad st0).isPanic = true ∧
    (HotloadShaders envStatBad st0).isPanic = true :=
  claim_C7 envStatBad st0 ⟨"v", 0⟩ (by decide) rfl

/-- Claim C8: assuming heap well-formedness (every allocated pointer is
below the allocator counter, true of all reachable states), every
operation of the subsystem preserves the watchlist invariant: each path
referenced by a registered program entry has a watchlist entry, and the
watchlist holds at most one entry per path. -/
theorem claim_C8 (env : Env) (st : St) (n v f name : String) (p : Nat)
    (changed : List String) (h : WatchInv st ∧ PtrFresh st) :
    WatchInv (MakeProgram env st n v f).state ∧
    WatchInv (GetChangedShaderFiles env st).state ∧
    WatchInv (ReloadProgram env st name p changed).state ∧
    WatchInv (HotloadShaders env st).state :=
  ⟨(MakeProgram_WatchInv env st n v f h).1,
   (GetChangedShaderFiles_WatchInv env st h).1,
   (ReloadProgram_WatchInv env st name p changed h).1,
   (HotloadShaders_WatchInv env st h).1⟩

/-- Witness for C8 at the concrete state `st0`, which satisfies the
invariant. -/
theorem claim_C8_witness :
    WatchInv (MakeProgram envGood st0 "q" "v2" "f2").state ∧
    WatchInv (GetChangedShaderFiles envGood st0).state ∧
    WatchInv (ReloadProgram envGood st0 "p" 0 ["v"]).state ∧
    WatchInv (HotloadShaders envGood st0).state := by
  have hinv : WatchInv st0 ∧ PtrFresh st0 := by
    refine ⟨⟨by decide, ?_⟩, ?_⟩
    · intro c hc prog hprog
      have hc' : c = ("p", 0) := by simpa [st0] using hc
      rw [hc'] at hprog
      simp [st0, hlookup] at hprog
      rw [← hprog]
      exact ⟨by decide, by decide⟩
    · intro c hc
      have hc' : c = (0, ⟨100, "", "v", "f"⟩) := by simpa [st0] using hc
      rw [hc']
      decide
  exact claim_C8 envGood st0 "q" "v2" "f2" "p" 0 ["v"] hinv

/-- Claim C9: a `LoadShader` call whose shader source fails to compile
returns a Go error and leaves the watchlist unchanged, so a path whose
only load attempt failed to compile is never reported by a later change
poll. -/
theorem claim_C9 (env : Env) (st : St) (path src : String) (ty : Nat)
    (h1 : env.readFile path = some src)
    (h2 : env.compileOk src ty = false) :
    ∃ e st', LoadShader env st path ty = Res.ok (Except.error e) st' ∧
      st'.LoadedShaders = st.LoadedShaders ∧
      (path ∉ watchPaths st →
        ∀ env₂ files st₂, GetChangedShaderFiles env₂ st' = Res.ok files st₂ →
          path ∉ files) := by
  refine ⟨_, _, LoadShader_compileFail env st path src ty h1 h2, rfl, ?_⟩
  intro hnm env₂ files st₂ hpoll hmem
  have hsub := getChangedAux_files_sub env₂ st.LoadedShaders
  rcases haux : getChangedAux env₂ st.LoadedShaders with ⟨l1, fl, pn⟩
  rw [haux] at hsub
  rcases pn with _ | msg
  · simp only [GetChangedShaderFiles, haux] at hpoll
    obtain ⟨rfl, -⟩ := Res.ok.inj hpoll
    exact hnm (hsub path hmem)
  · simp only [GetChangedShaderFiles, haux] at hpoll
    exact absurd hpoll (by simp)

/-- Witness for C9: loading the fresh path `"x"` under a failing compiler
leaves `st0`'s watchlist unchanged. -/
theorem claim_C9_witness :
    (LoadShader envCompileBad st0 "x" VERTEX_SHADER).state.LoadedShaders =
      st0.LoadedShaders ∧
    (LoadShader envCompileBad st0 "x" VERTEX_SHADER).isPanic = false := by
  obtain ⟨e, st', heq, hws, -⟩ :=
    claim_C9 envCompileBad st0 "x" "src-x" VERTEX_SHADER rfl rfl
  rw [heq]
  exact ⟨hws, rfl⟩

/-- Claim C10: re-registering an existing name (as every successful hot
reload does) mutates the stored entry in place: the name keeps its
pointer, the registry list is unchanged, and the record at that pointer
changes only in its `ID` field — `ProgramName` and both path fields are
untouched, so holders of the pointer observe the new handle. -/
theorem claim_C10 (env : Env) (st : St) (n v f : String) (ptr r : Nat)
    (s : St) (hreg : alookup st.LoadedPrograms n = some ptr)
    (hok : MakeProgram env st n v f = Res.ok (Except.ok r) s) :
    r = ptr ∧ s.LoadedPrograms = st.LoadedPrograms ∧
    alookup s.LoadedPrograms n = some ptr ∧
    ∃ nid, ∀ prog, hlookup st.heap ptr = some prog →
      hlookup s.heap ptr =
        some ⟨nid, prog.ProgramName, prog.VertexShaderFilePath,
          prog.FragmentShaderFilePath⟩ := by
  obtain ⟨-, -, -, -, -, -, -, hokk⟩ := MakeProgram_master env st n v f
  obtain ⟨-, -, hshape⟩ := hokk r s hok
  rcases hshape with ⟨halk, hP, -, nid, hH⟩ | ⟨halk, -⟩
  · rw [halk] at hreg
    obtain rfl : r = ptr := by simpa using hreg
    refine ⟨rfl, hP, by rw [hP, halk], nid, fun prog hprog => ?_⟩
    rw [hH, hlookup_updateID, if_pos rfl, hprog]
    rfl
  · rw [halk] at hreg
    exact absurd hreg (by simp)

/-- Witness for C10: re-registering `"p"` in `st0` with a successful
build keeps the pointer and paths and installs the new handle. -/
theorem claim_C10_witness :
    0 = 0 ∧
    (MakeProgram envGood st0 "p" "v" "f").state.LoadedPrograms =
      st0.LoadedPrograms ∧
    alookup (MakeProgram envGood st0 "p" "v" "f").state.LoadedPrograms "p" =
      some 0 ∧
    ∃ nid, ∀ prog, hlookup st0.heap 0 = some prog →
      hlookup (MakeProgram envGood st0 "p" "v" "f").state.heap 0 =
        some ⟨nid, prog.ProgramName, prog.VertexShaderFilePath,
          prog.FragmentShaderFilePath⟩ :=
  claim_C10 envGood st0 "p" "v" "f" 0 0
    (MakeProgram envGood st0 "p" "v" "f").state rfl rfl

/-- Claim C3: when a rebuild fully succeeds, the stored handle after the
poll differs from the handle before; the explicit trace shows the new
handle being recorded in the registry (`registryUpdate`) before the old
program object is destroyed, and the old handle is released exactly once
in this attempt. -/
theorem claim_C3 (env : Env) (st : St) (name : String) (ptr : Nat)
    (changed : List String) (prog : Program) (sv sf : String)
    (hptr : hlookup st.heap ptr = some prog)
    (hreg : alookup st.LoadedPrograms name = some ptr)
    (haff : changed.any (fun q => q = prog.VertexShaderFilePath ∨
      q = prog.FragmentShaderFilePath) = true)
    (hv : env.readFile prog.VertexShaderFilePath = some sv)
    (hcv : env.compileOk sv VERTEX_SHADER = true)
    (hwv : prog.VertexShaderFilePath ∈ watchPaths st)
    (hf : env.readFile prog.FragmentShaderFilePath = some sf)
    (hcf : env.compileOk sf FRAGMENT_SHADER = true)
    (hwf : prog.FragmentShaderFilePath ∈ watchPaths st)
    (hlink : env.linkOk (st.nextGLID + 2) = true)
    (hid : prog.ID < st.nextGLID) :
    ReloadProgram env st name ptr changed =
      Res.ok none
        { st with
          nextGLID := st.nextGLID + 3
          heap := heapUpdateID st.heap ptr (st.nextGLID + 2)
          trace := st.trace ++
            [GLEvent.makeProgramCall name,
             GLEvent.createShader st.nextGLID,
             GLEvent.createShader (st.nextGLID + 1),
             GLEvent.createProgram (st.nextGLID + 2),
             GLEvent.deleteShader st.nextGLID,
             GLEvent.deleteShader (st.nextGLID + 1),
             GLEvent.registryUpdate name (st.nextGLID + 2),
             GLEvent.deleteProgram prog.ID] } ∧
    hlookup (ReloadProgram env st name ptr changed).state.heap ptr =
      some { prog with ID := st.nextGLID + 2 } ∧
    st.nextGLID + 2 ≠ prog.ID ∧
    deletedProgs (ReloadProgram env st name ptr changed).state.trace =
      deletedProgs st.trace ++ [prog.ID] := by
  have hmk := MakeProgram_success_watched env st name
    prog.VertexShaderFilePath prog.FragmentShaderFilePath sv sf ptr
    hv hcv hwv hf hcf hwf hlink hreg
  have hR : ReloadProgram env st name ptr changed =
      Res.ok none
        { st with
          nextGLID := st.nextGLID + 3
          heap := heapUpdateID st.heap ptr (st.nextGLID + 2)
          trace := st.trace ++
            [GLEvent.makeProgramCall name,
             GLEvent.createShader st.nextGLID,
             GLEvent.createShader (st.nextGLID + 1),
             GLEvent.createProgram (st.nextGLID + 2),
             GLEvent.deleteShader st.nextGLID,
             GLEvent.deleteShader (st.nextGLID + 1),
             GLEvent.registryUpdate name (st.nextGLID + 2),
             GLEvent.deleteProgram prog.ID] } := by
    simp only [ReloadProgram, hptr, haff, if_true, hmk]
    simp
  refine ⟨hR, ?_, by omega, ?_⟩
  · rw [hR]
    simp only [Res.state]
    rw [hlookup_updateID, if_pos rfl, hptr]
    rfl
  · rw [hR]
    simp only [Res.state]
    simp [deletedProgs_append]

/-- Witness for C3 at the concrete successful rebuild of `"p"` in `st0`
after `"v"` changed. -/
theorem claim_C3_witness :
    ReloadProgram envGood st0 "p" 0 ["v"] =
      Res.ok none
        { st0 with
          nextGLID := st0.nextGLID + 3
          heap := heapUpdateID st0.heap 0 (st0.nextGLID + 2)
          trace := st0.trace ++
            [GLEvent.makeProgramCall "p",
             GLEvent.createShader st0.nextGLID,
             GLEvent.createShader (st0.nextGLID + 1),
             GLEvent.createProgram (st0.nextGLID + 2),
             GLEvent.deleteShader st0.nextGLID,
             GLEvent.deleteShader (st0.nextGLID + 1),
             GLEvent.registryUpdate "p" (st0.nextGLID + 2),
             GLEvent.deleteProgram 100] } ∧
    hlookup (ReloadProgram envGood st0 "p" 0 ["v"]).state.heap 0 =
      some ⟨st0.nextGLID + 2, "", "v", "f"⟩ ∧
    st0.nextGLID + 2 ≠ 100 ∧
    deletedProgs (ReloadProgram envGood st0 "p" 0 ["v"]).state.trace =
      deletedProgs st0.trace ++ [100] :=
  claim_C3 envGood st0 "p" 0 ["v"] ⟨100, "", "v", "f"⟩ "src-v" "src-f"
    rfl rfl (by decide) rfl rfl (by decide) rfl rfl (by decide) rfl
    (by decide)

/-- Claim C4: assuming every watched file can be stat'ed, (1) a path whose
filesystem time is unchanged never appears in a poll result, and (2) the
first poll strictly after a modification reports the path exactly once
and refreshes the stored time, so an immediate second poll reports
nothing at all. -/
theorem claim_C4 (env : Env) (st : St) (P : String) (t : Nat)
    (hall : ∀ info ∈ st.LoadedShaders, (env.stat info.FilePath).isSome) :
    ((∀ info ∈ st.LoadedShaders, info.FilePath = P →
        env.stat P = some info.LastModified) →
      ∀ files st₁, GetChangedShaderFiles env st = Res.ok files st₁ →
        P ∉ files) ∧
    (∀ info0 ∈ st.LoadedShaders, (watchPaths st).Nodup →
      info0.FilePath = P → env.stat P = some t → t ≠ info0.LastModified →
      ∃ files st₁, GetChangedShaderFiles env st = Res.ok files st₁ ∧
        files.count P = 1 ∧
        GetChangedShaderFiles env st₁ = Res.ok [] st₁) := by
  constructor
  · intro hunch files st₁ hpoll
    rw [GetChangedShaderFiles_spec env st hall] at hpoll
    obtain ⟨rfl, -⟩ := Res.ok.inj hpoll
    intro hmem
    obtain ⟨info, hinf, hfp⟩ := List.mem_map.mp hmem
    obtain ⟨hinfm, hich⟩ := List.mem_filter.mp hinf
    have := hunch info hinfm hfp
    rw [← hfp] at this
    simp [changedTest, this] at hich
  · intro info0 h0 hnd hP hstat hne
    refine ⟨_, _, GetChangedShaderFiles_spec env st hall, ?_, ?_⟩
    · rw [count_map_filter]
      apply length_filter_unique st.LoadedShaders P (changedTest env) hnd
        info0 h0 hP
      rw [changedTest, hP, hstat]
      simp
      exact fun he => hne he
    · have hall₁ : ∀ info ∈ st.LoadedShaders.map (refreshInfo env),
          (env.stat info.FilePath).isSome := by
        intro info hi
        rw [refreshed_unchanged env st.LoadedShaders hall info hi]
        rfl
      have hunch₁ := refreshed_unchanged env st.LoadedShaders hall
      have hspec := GetChangedShaderFiles_spec env
        { st with LoadedShaders := st.LoadedShaders.map (refreshInfo env) }
        hall₁
      rw [hspec]
      rw [show ({ st with LoadedShaders :=
          st.LoadedShaders.map (refreshInfo env) } : St).LoadedShaders =
        st.LoadedShaders.map (refreshInfo env) from rfl]
      rw [filter_changed_nil env _ hunch₁, map_refresh_id env _ hunch₁]
      simp

/-- Witness for C4 at `st0` under `envGood`, where exactly `"v"` has
changed: the first poll reports it once, the second not at all. -/
theorem claim_C4_witness :
    GetChangedShaderFiles envGood st0 =
      Res.ok ["v"] (GetChangedShaderFiles envGood st0).state ∧
    List.count "v" ["v"] = 1 ∧
    GetChangedShaderFiles envGood (GetChangedShaderFiles envGood st0).state =
      Res.ok [] (GetChangedShaderFiles envGood st0).state := by
  obtain ⟨files, st₁, heq, hcount, hsecond⟩ :=
    (claim_C4 envGood st0 "v" 1 (by decide)).2 ⟨"v", 0⟩ (by decide)
      (by decide) rfl rfl (by decide)
  have hval : GetChangedShaderFiles envGood st0 =
      Res.ok ["v"] (GetChangedShaderFiles envGood st0).state := rfl
  rw [hval] at heq
  obtain ⟨h1, h2⟩ := Res.ok.inj heq
  rw [← h2] at hsecond
  exact ⟨hval, by decide, hsecond⟩

theorem alookup_none_not_mem {β : Type} (L : List (String × β)) (n : String)
    (h : alookup L n = none) : n ∉ L.map Prod.fst := by
  induction L with
  | nil => simp
  | cons c rest ih =>
    obtain ⟨k, v⟩ := c
    by_cases hk : k = n
    · rw [alookup, if_pos hk] at h
      cases h
    · rw [alookup, if_neg hk] at h
      simp only [List.map_cons, List.mem_cons]
      rintro (h' | h')
      · exact hk h'.symm
      · exact ih h h'

/-- Counterexample to claim C2 as stated: in the world `envLinkBad` where
the changed shader of `st0` recompiles but fails to link, `HotloadShaders`
panics — the link error escapes the poll entry point and crashes the
program, unlike a compile error in the same situation, which is swallowed. -/
theorem claim_C2_counterexample :
    (HotloadShaders envLinkBad st0).isPanic = true ∧
    (HotloadShaders envCompileBad st0).isPanic = false :=
  ⟨rfl, rfl⟩

/-- Claim C2 (amended): compile errors during hot reload are recovered
locally — a failed shader compilation makes `MakeProgram` return a Go
error, which the `HotloadShaders` loop logs (`logError`) before
continuing with the remaining programs.  Link errors are handled
differently: a link failure panics inside `MakeProgram` and the panic
propagates out of the per-program loop, aborting the poll. -/
theorem claim_C2 :
    (∀ env st name ptr changed e st₁ rest,
      ReloadProgram env st name ptr changed = Res.ok (some e) st₁ →
      hotloadLoop env changed ((name, ptr) :: rest) st =
        hotloadLoop env changed rest
          { st₁ with trace := st₁.trace ++ [GLEvent.logError e] }) ∧
    (∀ env st name v f sv,
      env.readFile v = some sv → env.compileOk sv VERTEX_SHADER = false →
      MakeProgram env st name v f =
        Res.ok (Except.error ("failed to compile " ++ sv))
          { st with nextGLID := st.nextGLID + 1
                    trace := st.trace ++
                      [GLEvent.makeProgramCall name,
                       GLEvent.createShader st.nextGLID] }) ∧
    (∀ env st name ptr changed rest prog sv sf,
      hlookup st.heap ptr = some prog →
      changed.any (fun q => q = prog.VertexShaderFilePath ∨
        q = prog.FragmentShaderFilePath) = true →
      env.readFile prog.VertexShaderFilePath = some sv →
      env.compileOk sv VERTEX_SHADER = true →
      prog.VertexShaderFilePath ∈ watchPaths st →
      env.readFile prog.FragmentShaderFilePath = some sf →
      env.compileOk sf FRAGMENT_SHADER = true →
      prog.FragmentShaderFilePath ∈ watchPaths st →
      env.linkOk (st.nextGLID + 2) = false →
      ∃ st₁, hotloadLoop env changed ((name, ptr) :: rest) st =
        Res.panicked "failed to link program" st₁) := by
  refine ⟨?_, ?_, ?_⟩
  · intro env st name ptr changed e st₁ rest h
    simp only [hotloadLoop, h]
  · intro env st name v f sv h1 h2
    exact MakeProgram_compileFailV env st name v f sv h1 h2
  · intro env st name ptr changed rest prog sv sf hptr haff hv hcv hwv hf
      hcf hwf hlink
    have hmk := MakeProgram_linkFail env st name
      prog.VertexShaderFilePath prog.FragmentShaderFilePath sv sf
      hv hcv hwv hf hcf hwf hlink
    have hR : ReloadProgram env st name ptr changed =
        Res.panicked "failed to link program"
          { st with
            nextGLID := st.nextGLID + 3
            trace := st.trace ++
              [GLEvent.makeProgramCall name,
               GLEvent.createShader st.nextGLID,
               GLEvent.createShader (st.nextGLID + 1),
               GLEvent.createProgram (st.nextGLID + 2)] } := by
      simp only [ReloadProgram, hptr, haff, if_true, hmk]
    refine ⟨{ st with
      nextGLID := st.nextGLID + 3
      trace := st.trace ++
        [GLEvent.makeProgramCall name,
         GLEvent.createShader st.nextGLID,
         GLEvent.createShader (st.nextGLID + 1),
         GLEvent.createProgram (st.nextGLID + 2)] }, ?_⟩
    simp only [hotloadLoop, hR]

/-- Witness for the amended C2 at concrete runs: a compile failure is
logged and the loop continues; a compile failure yields an error return
with an unchanged registry; a link failure panics out of the loop. -/
theorem claim_C2_witness :
    hotloadLoop envCompileBad ["v"] [("p", 0)] st0 =
      hotloadLoop envCompileBad ["v"] []
        { (ReloadProgram envCompileBad st0 "p" 0 ["v"]).state with
          trace := (ReloadProgram envCompileBad st0 "p" 0 ["v"]).state.trace ++
            [GLEvent.logError "failed to compile src-v"] } ∧
    MakeProgram envCompileBad st0 "p" "v" "f" =
      Res.ok (Except.error ("failed to compile " ++ "src-v"))
        { st0 with nextGLID := st0.nextGLID + 1
                   trace := st0.trace ++
                     [GLEvent.makeProgramCall "p",
                      GLEvent.createShader st0.nextGLID] } ∧
    (hotloadLoop envLinkBad ["v"] [("p", 0)] st0).isPanic = true := by
  obtain ⟨ha, hb, hc⟩ := claim_C2
  refine ⟨?_, ?_, ?_⟩
  · exact ha envCompileBad st0 "p" 0 ["v"] "failed to compile src-v"
      (ReloadProgram envCompileBad st0 "p" 0 ["v"]).state [] rfl
  · exact hb envCompileBad st0 "p" "v" "f" "src-v" rfl rfl
  · obtain ⟨st₁, h⟩ := hc envLinkBad st0 "p" 0 ["v"] []
      ⟨100, "", "v", "f"⟩ "src-v" "src-f" rfl (by decide) rfl rfl
      (by decide) rfl rfl (by decide) rfl
    rw [h]
    rfl

/-- Counterexample to claim C5 as stated: in `st2` both `"p1"` and `"p2"`
depend on the changed file `"v"`; `"p1"`'s rebuild fails at link time,
the poll panics, and the affected `"p2"` gets zero rebuild attempts in
that poll — one program's rebuild failure does prevent the other's
attempt. -/
theorem claim_C5_counterexample :
    (HotloadShaders envLinkBad st2).isPanic = true ∧
    makeProgramCalls (HotloadShaders envLinkBad st2).state.trace "p1" = 1 ∧
    affectedAt st2 1 ["v"] = true ∧
    makeProgramCalls (HotloadShaders envLinkBad st2).state.trace "p2" = 0 :=
  ⟨rfl, rfl, by decide, rfl⟩

/-- Claim C5 (amended): each program processed by the poll receives
exactly one rebuild attempt when its dependency set meets the changed set
(even when both of its files changed) and none otherwise; over a poll
that completes, every registered program is attempted exactly once per
affected entry.  A rebuild that fails with a compile error is logged and
the loop continues with the remaining programs; a rebuild that fails at
link time panics and aborts the loop, so later programs get no attempt. -/
theorem claim_C5 :
    (∀ env st name ptr changed m,
      makeProgramCalls (ReloadProgram env st name ptr changed).state.trace m =
        makeProgramCalls st.trace m +
          (if affectedAt st ptr changed then (if name = m then 1 else 0)
           else 0)) ∧
    (∀ env changed L st sF m,
      hotloadLoop env changed L st = Res.ok () sF →
      (∀ c ∈ L, (alookup st.LoadedPrograms c.1).isSome) →
      makeProgramCalls sF.trace m = makeProgramCalls st.trace m +
        (L.filter (fun c => affectedAt st c.2 changed && (c.1 == m))).length) ∧
    (∀ env st name ptr changed e st₁ rest,
      ReloadProgram env st name ptr changed = Res.ok (some e) st₁ →
      hotloadLoop env changed ((name, ptr) :: rest) st =
        hotloadLoop env changed rest
          { st₁ with trace := st₁.trace ++ [GLEvent.logError e] }) ∧
    (∀ env st name ptr changed m₁ st₁ rest,
      ReloadProgram env st name ptr changed = Res.panicked m₁ st₁ →
      hotloadLoop env changed ((name, ptr) :: rest) st =
        Res.panicked m₁ st₁) := by
  refine ⟨?_, ?_, ?_, ?_⟩
  · intro env st name ptr changed m
    exact ReloadProgram_count env st name ptr changed m
  · intro env changed L st sF m hok hreg
    exact hotloadLoop_count env changed L st sF m hok hreg
  · intro env st name ptr changed e st₁ rest h
    simp only [hotloadLoop, h]
  · intro env st name ptr changed m₁ st₁ rest h
    simp only [hotloadLoop, h]

/-- Witness for the amended C5 at concrete runs on `st0` and `st2`. -/
theorem claim_C5_witness :
    (makeProgramCalls (ReloadProgram envGood st0 "p" 0 ["v"]).state.trace "p" =
      makeProgramCalls st0.trace "p" +
        (if affectedAt st0 0 ["v"] then (if "p" = "p" then 1 else 0)
         else 0)) ∧
    (makeProgramCalls (hotloadLoop envGood ["v"] [("p", 0)] st0).state.trace "p" =
      makeProgramCalls st0.trace "p" +
        (([("p", 0)].filter
          (fun c => affectedAt st0 c.2 ["v"] && (c.1 == "p"))).length)) ∧
    (hotloadLoop envCompileBad ["v"] [("p1", 0), ("p2", 1)] st2 =
      hotloadLoop envCompileBad ["v"] [("p2", 1)]
        { (ReloadProgram envCompileBad st2 "p1" 0 ["v"]).state with
          trace := (ReloadProgram envCompileBad st2 "p1" 0 ["v"]).state.trace ++
            [GLEvent.logError "failed to compile src-v"] }) ∧
    (hotloadLoop envLinkBad ["v"] [("p", 0)] st0 =
      Res.panicked "failed to link program"
        (ReloadProgram envLinkBad st0 "p" 0 ["v"]).state) := by
  obtain ⟨ha, hb, hc, hd⟩ := claim_C5
  refine ⟨?_, ?_, ?_, ?_⟩
  · exact ha envGood st0 "p" 0 ["v"] "p"
  · exact hb envGood ["v"] [("p", 0)] st0
      (hotloadLoop envGood ["v"] [("p", 0)] st0).state "p" rfl (by decide)
  · exact hc envCompileBad st2 "p1" 0 ["v"] "failed to compile src-v"
      (ReloadProgram envCompileBad st2 "p1" 0 ["v"]).state [("p2", 1)] rfl
  · exact hd envLinkBad st0 "p" 0 ["v"] "failed to link program"
      (ReloadProgram envLinkBad st0 "p" 0 ["v"]).state [] rfl

/-- Counterexample to claim C6 as stated: registering the existing name
`"p"` of `st0` with the new paths `"v2"`/`"f2"` succeeds, but the stored
entry keeps the old paths `"v"`/`"f"` — re-registration replaces the
handle only, not the source file paths. -/
theorem claim_C6_counterexample :
    (MakeProgram envGood st0 "p" "v2" "f2").isPanic = false ∧
    (hlookup (MakeProgram envGood st0 "p" "v2" "f2").state.heap 0).map
      Program.VertexShaderFilePath = some "v" ∧
    (hlookup (MakeProgram envGood st0 "p" "v2" "f2").state.heap 0).map
      Program.FragmentShaderFilePath = some "f" ∧
    (hlookup (MakeProgram envGood st0 "p" "v2" "f2").state.heap 0).map
      Program.ID = some 103 ∧
    "v" ≠ "v2" ∧ "f" ≠ "f2" :=
  ⟨rfl, rfl, rfl, rfl, by decide, by decide⟩

/-- Claim C6 (amended): a successful `MakeProgram` under an
already-existing name replaces only the entry's handle (the heap cell is
rewritten by `heapUpdateID`, which touches nothing but the `ID` field)
and leaves the registry bindings unchanged; under a fresh name it appends
a new entry carrying the supplied paths; names remain unique keys. -/
theorem claim_C6 (env : Env) (st : St) (n v f : String) (r : Nat) (s : St)
    (hok : MakeProgram env st n v f = Res.ok (Except.ok r) s) :
    (∀ ptr, alookup st.LoadedPrograms n = some ptr →
      r = ptr ∧ s.LoadedPrograms = st.LoadedPrograms ∧
      ∃ nid, s.heap = heapUpdateID st.heap ptr nid) ∧
    (alookup st.LoadedPrograms n = none →
      s.LoadedPrograms = st.LoadedPrograms ++ [(n, r)] ∧
      ∃ nid, s.heap = st.heap ++ [(r, ⟨nid, "", v, f⟩)]) ∧
    ((st.LoadedPrograms.map Prod.fst).Nodup →
      (s.LoadedPrograms.map Prod.fst).Nodup) := by
  obtain ⟨-, -, -, -, -, -, -, hokk⟩ := MakeProgram_master env st n v f
  obtain ⟨-, -, hshape⟩ := hokk r s hok
  rcases hshape with ⟨halk, hP, -, nid, hH⟩ | ⟨halk, -, -, nid, hP, hH⟩
  · refine ⟨?_, ?_, ?_⟩
    · intro ptr hptr
      rw [halk] at hptr
      obtain rfl : r = ptr := by simpa using hptr
      exact ⟨rfl, hP, nid, hH⟩
    · intro hnone
      rw [halk] at hnone
      cases hnone
    · intro hnd
      rw [hP]
      exact hnd
  · refine ⟨?_, ?_, ?_⟩
    · intro ptr hptr
      rw [halk] at hptr
      cases hptr
    · intro hnone
      exact ⟨hP, nid, hH⟩
    · intro hnd
      rw [hP]
      simp only [List.map_append, List.map_cons, List.map_nil]
      rw [List.nodup_append]
      refine ⟨hnd, by simp, ?_⟩
      intro a ha
      simp only [List.mem_singleton]
      intro hb
      rw [hb] at ha
      exact alookup_none_not_mem st.LoadedPrograms n halk ha

/-- Witness for the amended C6: re-registering `"p"` in `st0` keeps the
pointer, the registry bindings, and key uniqueness. -/
theorem claim_C6_witness :
    0 = 0 ∧
    (MakeProgram envGood st0 "p" "v2" "f2").state.LoadedPrograms =
      st0.LoadedPrograms ∧
    ((MakeProgram envGood st0 "p" "v2" "f2").state.LoadedPrograms.map
      Prod.fst).Nodup := by
  have h := claim_C6 envGood st0 "p" "v2" "f2" 0
    (MakeProgram envGood st0 "p" "v2" "f2").state rfl
  obtain ⟨h1, h2, -⟩ := h.1 0 rfl
  exact ⟨h1, h2, h.2.2 (by decide)⟩

end Gogl
